import Mathlib

/-!
Verification development for the lead-generation pipeline.

The Python modules under `app/` are shallowly embedded as executable Lean
definitions.  Machine/stdlib collaborators (the XML and HTML parsers, DNS,
SMTP, HTTP, `hashlib.sha1`) are modelled at their call boundary: parsed
XML/HTML is represented by the element data the code reads, SHA-1 is a
function parameter, resolver/network outcomes are explicit inputs.
Timestamps are seconds; time-zone conversion is modelled as a fixed offset
(`ZoneInfo` with DST is not statable in a pure embedding).
-/

namespace LeadGen

/-! ## Python string primitives (ASCII + Cyrillic subset used by the code) -/

/-- Python `str.lower` for one character, covering ASCII and the Cyrillic
range actually present in the repository's data. -/
def pyLowerChar (c : Char) : Char :=
  if 65 ≤ c.toNat ∧ c.toNat ≤ 90 then Char.ofNat (c.toNat + 32)
  else if 0x410 ≤ c.toNat ∧ c.toNat ≤ 0x42F then Char.ofNat (c.toNat + 32)
  else if c.toNat = 0x401 then Char.ofNat 0x451
  else c

/-- Python `str.lower` on a string. -/
def pyLower (s : String) : String := String.mk (s.data.map pyLowerChar)

/-- Whitespace set used by Python `str.strip()` / `\s` (ASCII part). -/
def pyIsSpace (c : Char) : Bool :=
  c = ' ' ∨ c = '\t' ∨ c = '\n' ∨ c = '\r' ∨ c.toNat = 11 ∨ c.toNat = 12

/-- Python `str.strip()` restricted to a given character class. -/
def stripWhile (p : Char → Bool) (l : List Char) : List Char :=
  ((l.dropWhile p).reverse.dropWhile p).reverse

/-- Python `str.strip()`. -/
def pyTrim (s : String) : String := String.mk (stripWhile pyIsSpace s.data)

/-- Python `str.split()` with no argument: split on whitespace runs,
dropping empty chunks. -/
def pySplitWsAux : List Char → List Char → List String
  | [], acc => if acc.isEmpty then [] else [String.mk acc.reverse]
  | c :: rest, acc =>
    if pyIsSpace c then
      if acc.isEmpty then pySplitWsAux rest []
      else String.mk acc.reverse :: pySplitWsAux rest []
    else pySplitWsAux rest (c :: acc)

/-- Python `str.split()` with no argument. -/
def pySplitWs (s : String) : List String := pySplitWsAux s.data []

/-- Python `" ".join(parts)`. -/
def joinSpace (parts : List String) : String := String.intercalate " " parts

/-- Python `s.split(sep, 1)` on a single-character separator: the part before
the first occurrence, and the remainder when the separator occurs. -/
def splitFirstAux (sep : Char) : List Char → List Char → List Char × Option (List Char)
  | [], acc => (acc.reverse, none)
  | c :: rest, acc =>
    if c = sep then (acc.reverse, some rest) else splitFirstAux sep rest (c :: acc)

/-- Python `s.split(sep, 1)` packaged as (head, optional tail). -/
def splitFirst (s : String) (sep : Char) : String × Option String :=
  let (a, b) := splitFirstAux sep s.data []
  (String.mk a, b.map String.mk)

/-- List-level `startsWith`. -/
def startsWithList : List Char → List Char → Bool
  | _, [] => true
  | [], _ :: _ => false
  | c :: cs, p :: ps => c = p ∧ startsWithList cs ps

/-- Python `s.startswith(p)`. -/
def pyStartsWith (s p : String) : Bool := startsWithList s.data p.data

/-- Substring containment, Python `needle in hay`. -/
def containsSub (hay needle : String) : Bool := go hay.data
where go : List Char → Bool
  | [] => needle.data.isEmpty
  | c :: rest => startsWithList (c :: rest) needle.data ∨ go rest

/-- Strict lexicographic comparison of strings by code points, Python `<`. -/
def strLtB : List Char → List Char → Bool
  | [], [] => false
  | [], _ :: _ => true
  | _ :: _, [] => false
  | a :: as, b :: bs => a.toNat < b.toNat ∨ (a = b ∧ strLtB as bs)

/-- Python truthiness-aware `opt or dflt` for optional strings (`None` and
`""` are both falsy). -/
def optOr (a : Option String) (dflt : String) : String :=
  match a with
  | some s => if s = "" then dflt else s
  | none => dflt

/-! ## `app/modules/utils/normalize.py` -/

/-- Character class of Python's `_SCHEME_RE` body (`[a-zA-Z0-9+.-]`). -/
def isSchemeChar (c : Char) : Bool := c.isAlphanum ∨ c = '+' ∨ c = '-' ∨ c = '.'

/-- Split `scheme://rest`; `none` when `_SCHEME_RE` does not match. -/
def splitSchemeAux : List Char → List Char → Option (String × String)
  | acc, ':' :: '/' :: '/' :: tail => some (String.mk acc.reverse, String.mk tail)
  | acc, c :: tail => if isSchemeChar c then splitSchemeAux (c :: acc) tail else none
  | _, [] => none

/-- Matches Python's `_SCHEME_RE` and returns the scheme and the remainder. -/
def splitScheme (s : String) : Option (String × String) :=
  match s.data with
  | [] => none
  | c :: rest => if c.isAlpha then splitSchemeAux [c] rest else none

/-- Result of `urllib.parse.urlparse`, restricted to the components the code
reads (`scheme`, `netloc`, `path`, `query`, `port`). -/
structure UrlParts where
  scheme : String
  netloc : String
  path : String
  query : String
deriving DecidableEq, Repr

/-- Model of `urllib.parse.urlparse` for the inputs `normalize_url` builds
(an absolute URL once the scheme has been prepended).  Without a scheme the
whole string lands in `path`, as in CPython. -/
def urlparse (s : String) : UrlParts :=
  match splitScheme s with
  | none => { scheme := "", netloc := "", path := s, query := "" }
  | some (sch, rest) =>
    let (beforeFrag, _) := splitFirst rest '#'
    let (beforeQuery, queryOpt) := splitFirst beforeFrag '?'
    let (netloc, pathOpt) := splitFirst beforeQuery '/'
    { scheme := pyLower sch
      netloc := netloc
      path := match pathOpt with | some p => "/" ++ p | none => ""
      query := match queryOpt with | some q => q | none => "" }

/-- Numeric value of a digit string. -/
def digitsToNat (l : List Char) : Nat := l.foldl (fun acc c => acc * 10 + (c.toNat - 48)) 0

/-- Model of `parsed.port`: the digits after the last colon of the netloc,
`none` when absent (an invalid port is not exercised by this code base). -/
def netlocPort (netloc : String) : Option Nat :=
  match netloc.data.reverse.takeWhile (fun c => c ≠ ':') , netloc.data.contains ':' with
  | digitsRev, true =>
    let digits := digitsRev.reverse
    if digits ≠ [] ∧ digits.all Char.isDigit then some (digitsToNat digits) else none
  | _, false => none

/-- Python `host.split(':', 1)[0]`. -/
def hostBeforeColon (host : String) : String := (splitFirst host ':').1

/-- Collapse `/{2,}` runs to a single slash (`re.sub(r"/{2,}", "/", path)`);
the flag records whether the previous kept character was a slash. -/
def collapseSlashesAux : Bool → List Char → List Char
  | _, [] => []
  | prevSlash, c :: rest =>
    if c = '/' then
      if prevSlash then collapseSlashesAux true rest
      else '/' :: collapseSlashesAux true rest
    else c :: collapseSlashesAux false rest

/-- Collapse `/{2,}` runs to a single slash. -/
def collapseSlashes (l : List Char) : List Char := collapseSlashesAux false l

/-- Python `s.rstrip("/")`. -/
def rstripSlash (s : String) : String :=
  String.mk ((s.data.reverse.dropWhile (fun c => c = '/')).reverse)

/-- Embedding of `normalize_url` from `app/modules/utils/normalize.py`. -/
def normalize_url (raw : String) : String :=
  let value := pyTrim raw
  if value = "" then ""
  else
    let value := if (splitScheme value).isSome then value else "https://" ++ value
    let parsed := urlparse value
    let scheme := if parsed.scheme = "" then "https" else parsed.scheme
    let netloc := if parsed.netloc = "" then parsed.path else parsed.netloc
    let path := if parsed.netloc ≠ "" then parsed.path else ""
    if netloc = "" then ""
    else
      let host := pyLower netloc
      let host := if pyStartsWith host "www." then host.drop 4 else host
      let host :=
        match netlocPort parsed.netloc with
        | some port =>
          if port ≠ 0 ∧ port ≠ 80 ∧ port ≠ 443 then
            hostBeforeColon host ++ ":" ++ toString port
          else hostBeforeColon host
        | none => hostBeforeColon host
      let cleanPath := String.mk (collapseSlashes path.data)
      let cleanPath := if cleanPath = "" then "/" else cleanPath
      let finalPath := let r := rstripSlash cleanPath; if r = "" then "/" else r
      scheme ++ "://" ++ host ++ finalPath ++
        (if parsed.query ≠ "" then "?" ++ parsed.query else "")

/-- Model of `domain.encode("idna")`: identity on the ASCII domains this
development evaluates; the punycode codec itself is an external collaborator. -/
def idnaAscii (s : String) : String := s

/-- Embedding of `normalize_domain` from `app/modules/utils/normalize.py`. -/
def normalize_domain (value : String) : String :=
  let candidate := pyTrim value
  if candidate = "" then ""
  else
    let domain :=
      if candidate.data.contains '/' ∨ (splitScheme candidate).isSome then
        (urlparse (normalize_url candidate)).netloc
      else candidate
    let domain := pyLower domain
    let domain := if pyStartsWith domain "www." then domain.drop 4 else domain
    idnaAscii domain

/-- Embedding of `build_company_dedupe_key`; `sha1Hex` stands for `hashlib.sha1(·).hexdigest()`. -/
def build_company_dedupe_key (sha1Hex : String → String) (name domain : String) : String :=
  let canonicalDomain := normalize_domain domain
  let payload := if canonicalDomain ≠ "" then canonicalDomain else pyLower (pyTrim name)
  sha1Hex payload

/-- Embedding of `clean_snippet`: collapse whitespace runs and strip. -/
def clean_snippet (t : Option String) : String :=
  match t with
  | none => ""
  | some s => if s = "" then "" else joinSpace (pySplitWs s)

/-! ## `app/modules/constants.py` -/

/-- Embedding of `EXCLUDED_DOMAINS` from `app/modules/constants.py`. -/
def EXCLUDED_DOMAINS : List String :=
  ["avito.ru", "yandex.ru", "2gis.ru", "hh.ru", "flamp.ru", "otzovik.com",
   "irecommend.ru", "youtube.com", "profi.ru", "yell.ru", "workspace.ru",
   "vuzopedia.ru", "orgpage.ru", "rating-gamedev.ru", "ru.wadline.com",
   "vk.com", "reddit.com", "pikabu.ru"]

/-- Embedding of `HOMEPAGE_EXCERPT_LIMIT` from `app/modules/constants.py`. -/
def HOMEPAGE_EXCERPT_LIMIT : Nat := 40000

/-! ## `app/modules/serp_ingest.py`

The XML payload is modelled at the level of the `doc` elements that
`ElementTree` hands to the code: `findtext` results are `Option String`
(`none` for a missing element), passages are the `passage` node texts and
properties are `(name attribute, text)` pairs. -/

/-- One `doc` element of the Yandex SERP XML as read by `parse_serp_xml`. -/
structure XmlDoc where
  url : Option String
  lurl : Option String
  domain : Option String
  title : Option String
  name : Option String
  passages : List (Option String)
  properties : List (Option String × Option String)
deriving DecidableEq, Repr

/-- Embedding of `SerpDocument` dataclass. -/
structure SerpDocument where
  url : String
  domain : String
  title : String
  snippet : String
  position : Nat
  language : Option String
deriving DecidableEq, Repr

/-- First `property` with `name="lang"` and truthy text, stripped. -/
def findLang : List (Option String × Option String) → Option String
  | [] => none
  | (n, t) :: rest =>
    if n = some "lang" ∧ optOr t "" ≠ "" then some (pyTrim (optOr t ""))
    else findLang rest

/-- Body of the `parse_serp_xml` loop for a single `doc` element; `none`
models the `continue` on a document without a usable URL. -/
def parseSerpDoc (position : Nat) (doc : XmlDoc) : Option SerpDocument :=
  let urlText := pyTrim (optOr doc.url (optOr doc.lurl ""))
  let normalizedUrl := normalize_url urlText
  if normalizedUrl = "" then none
  else
    let domainText := optOr doc.domain ""
    let normalizedDomain :=
      normalize_domain (if domainText = "" then normalizedUrl else domainText)
    let title := pyTrim (optOr doc.title (optOr doc.name normalizedDomain))
    let passages := doc.passages.map (fun p => clean_snippet p)
    let snippet := clean_snippet (some (joinSpace (passages.filter (fun p => p ≠ ""))))
    some { url := normalizedUrl, domain := normalizedDomain, title := title,
           snippet := snippet, position := position, language := findLang doc.properties }

/-- Loop of `parse_serp_xml`: `enumerate(root.findall(".//doc"), start=1)`;
skipped documents still consume their position. -/
def parseSerpXmlAux : Nat → List XmlDoc → List SerpDocument
  | _, [] => []
  | pos, d :: rest =>
    match parseSerpDoc pos d with
    | some sd => sd :: parseSerpXmlAux (pos + 1) rest
    | none => parseSerpXmlAux (pos + 1) rest

/-- Embedding of `parse_serp_xml` over the extracted `doc` elements. -/
def parse_serp_xml (docs : List XmlDoc) : List SerpDocument := parseSerpXmlAux 1 docs

/-- A `serp_results` row (the columns written by `INSERT_SERP_RESULT_SQL`). -/
structure SerpResultRow where
  operationId : String
  url : String
  domain : String
  title : String
  snippet : String
  position : Nat
  language : Option String
deriving DecidableEq, Repr

/-- A `companies` row as written by `UPSERT_COMPANY_SQL`. -/
structure IngCompanyRow where
  name : String
  canonicalDomain : Option String
  websiteUrl : Option String
  status : String
  dedupeHash : String
deriving DecidableEq, Repr

/-- The slice of the database `SerpIngestService` touches. -/
structure IngestDb where
  serpResults : List SerpResultRow
  companies : List IngCompanyRow
deriving DecidableEq, Repr

/-- Embedding of `INSERT ... ON CONFLICT (operation_id, url) DO UPDATE` for `serp_results`. -/
def upsertResult (db : IngestDb) (operationId : String) (d : SerpDocument) : IngestDb :=
  if db.serpResults.any (fun r => r.operationId = operationId ∧ r.url = d.url) then
    { db with serpResults := db.serpResults.map (fun r =>
        if r.operationId = operationId ∧ r.url = d.url then
          { r with title := d.title, snippet := d.snippet,
                   position := d.position, language := d.language }
        else r) }
  else
    { db with serpResults := db.serpResults ++
        [{ operationId := operationId, url := d.url, domain := d.domain,
           title := d.title, snippet := d.snippet, position := d.position,
           language := d.language }] }

/-- Embedding of `_ensure_company`: `INSERT ... ON CONFLICT (dedupe_hash) DO UPDATE`
(`website_url` is first-wins via `COALESCE`). -/
def ensureCompany (sha1Hex : String → String) (db : IngestDb) (d : SerpDocument) : IngestDb :=
  let dedupeHash := build_company_dedupe_key sha1Hex d.title d.domain
  if db.companies.any (fun c => c.dedupeHash = dedupeHash) then
    { db with companies := db.companies.map (fun c =>
        if c.dedupeHash = dedupeHash then
          { c with websiteUrl := match c.websiteUrl with
                                 | some w => some w
                                 | none => some d.url }
        else c) }
  else
    { db with companies := db.companies ++
        [{ name := if d.title = "" then d.domain else d.title
           canonicalDomain := if d.domain = "" then none else some d.domain
           websiteUrl := some d.url
           status := "new"
           dedupeHash := dedupeHash }] }

/-- Embedding of `SerpIngestService.ingest`: parse and persist every parsed document. -/
def ingest (sha1Hex : String → String) (operationId : String) (docs : List XmlDoc)
    (db : IngestDb) : IngestDb :=
  let documents := parse_serp_xml docs
  if documents = [] then db
  else documents.foldl (fun acc d => ensureCompany sha1Hex (upsertResult acc operationId d) d) db

/-! ## `app/modules/mx_router.py`

The DNS resolver is external: `_resolve_mx`'s outcome is an explicit input
(`DnsOutcome`), either the raw MX exchanges or a `DNSException` after both
resolver attempts.  Wall-clock time is an explicit `now` in seconds. -/

/-- MX classification values (`RU | OTHER | UNKNOWN`). -/
inductive MXClass | RU | OTHER | UNKNOWN
deriving DecidableEq, Repr

/-- Embedding of `MXResult` dataclass. -/
structure MXResult where
  classification : MXClass
  records : List String
  ttlHit : Bool
deriving DecidableEq, Repr

/-- Embedding of `RoutingSettings` fields the router logic reads. -/
structure RoutingSettingsL where
  enabled : Bool
  mxCacheTtlHours : Nat
  ruMxPatterns : List String
  forceRuDomains : List String
deriving DecidableEq, Repr

/-- One `TTLCache` entry: key, expiry instant, cached `(classification, records)`. -/
abbrev CacheEntry := String × Nat × (MXClass × List String)

/-- Embedding of `TTLCache` store in LRU order (least recently used first). -/
abbrev MXCache := List CacheEntry

/-- Embedding of `TTLCache.get`: `none` and eviction for a missing/expired key, otherwise
the value with the entry moved to the most-recent end. -/
def cacheGet (cache : MXCache) (key : String) (now : Nat) :
    Option (MXClass × List String) × MXCache :=
  match cache.find? (fun e => e.1 = key) with
  | none => (none, cache)
  | some (_, expiresAt, value) =>
    if expiresAt ≤ now then (none, cache.filter (fun e => e.1 ≠ key))
    else (some value, cache.filter (fun e => e.1 ≠ key) ++ [(key, expiresAt, value)])

/-- Embedding of `TTLCache.set`: store at the most-recent end, evicting the LRU entry when
the size bound is exceeded. -/
def cacheSet (cache : MXCache) (key : String) (value : MXClass × List String)
    (now ttlSeconds maxsize : Nat) : MXCache :=
  let cache := cache.filter (fun e => e.1 ≠ key) ++ [(key, now + ttlSeconds, value)]
  if maxsize < cache.length then cache.drop 1 else cache

/-- Outcome of `_resolve_mx`: the exchanges of the DNS answer, or a
`DNSException` after exhausting both resolver attempts. -/
inductive DnsOutcome
  | ok (exchanges : List String)
  | err
deriving DecidableEq, Repr

/-- Embedding of `__init__`: `tuple(p.lower() for p in ru_mx_patterns if p)`. -/
def ruPatternsOf (st : RoutingSettingsL) : List String :=
  (st.ruMxPatterns.filter (fun p => p ≠ "")).map pyLower

/-- Embedding of `__init__`: `{domain.lower() for domain in force_ru_domains if domain}`. -/
def forceRuOf (st : RoutingSettingsL) : List String :=
  (st.forceRuDomains.filter (fun d => d ≠ "")).map pyLower

/-- Embedding of `__init__`: `ttl_seconds = max(mx_cache_ttl_hours * 3600, 60)`. -/
def ttlSecondsOf (st : RoutingSettingsL) : Nat := max (st.mxCacheTtlHours * 3600) 60

/-- Embedding of `str(r.exchange).rstrip(".").lower()` applied to one exchange. -/
def hostOfExchange (r : String) : String :=
  pyLower (String.mk ((r.data.reverse.dropWhile (fun c => c = '.')).reverse))

/-- Embedding of `_matches_ru`: some record contains some configured pattern as a substring. -/
def matchesRu (patterns records : List String) : Bool :=
  records.any (fun record => patterns.any (fun p => containsSub (pyLower record) p))

/-- Embedding of `_classify_uncached` given the resolver outcome. -/
def classifyUncached (st : RoutingSettingsL) (dns : DnsOutcome) : MXClass × List String :=
  match dns with
  | .err => (.UNKNOWN, [])
  | .ok exchanges =>
    let records := exchanges.map hostOfExchange
    if records = [] then (.UNKNOWN, [])
    else if matchesRu (ruPatternsOf st) records then (.RU, records)
    else (.OTHER, records)

/-- Result of one `classify` call: the `MXResult`, the cache afterwards, and
how many times the DNS lookup path ran. -/
structure ClassifyOutcome where
  result : MXResult
  cache : MXCache
  dnsQueries : Nat
deriving DecidableEq, Repr

/-- Embedding of `MXRouter.classify`. -/
def classify (st : RoutingSettingsL) (cache : MXCache) (now : Nat) (domain : String)
    (dns : DnsOutcome) : ClassifyOutcome :=
  if st.enabled = false then
    { result := ⟨.OTHER, [], false⟩, cache := cache, dnsQueries := 0 }
  else
    let normalized := pyLower (pyTrim domain)
    if normalized = "" then
      { result := ⟨.UNKNOWN, [], false⟩, cache := cache, dnsQueries := 0 }
    else
      let key := "mx:" ++ normalized
      if normalized ∈ forceRuOf st then
        { result := ⟨.RU, [], false⟩
          cache := cacheSet cache key (.RU, []) now (ttlSecondsOf st) 1024
          dnsQueries := 0 }
      else
        match cacheGet cache key now with
        | (some (cls, records), cache') =>
          { result := ⟨cls, records, true⟩, cache := cache', dnsQueries := 0 }
        | (none, cache') =>
          let (cls, records) := classifyUncached st dns
          { result := ⟨cls, records, false⟩
            cache := cacheSet cache' key (cls, records) now (ttlSecondsOf st) 1024
            dnsQueries := 1 }

/-! ## `app/modules/utils/email.py` -/

/-- Characters of `STRIP_CHARS = "<>[]()\"' \t\r\n"`. -/
def isStripChar (c : Char) : Bool :=
  c = '<' ∨ c = '>' ∨ c = '[' ∨ c = ']' ∨ c = '(' ∨ c = ')' ∨
  c.toNat = 34 ∨ c.toNat = 39 ∨ c = ' ' ∨ c = '\t' ∨ c = '\r' ∨ c = '\n'

/-- Model of `email.utils.parseaddr(s)[1]`: the address between the first
angle-bracket pair when present, otherwise the input itself (the plain
addr-spec case); the richer RFC 2822 grammar is an external collaborator. -/
def parseaddrEmail (s : String) : String :=
  match splitFirst s '<' with
  | (_, some rest) => (splitFirst rest '>').1
  | (_, none) => s

/-- Embedding of `clean_email` from `app/modules/utils/email.py`. -/
def clean_email (value : String) : String :=
  let raw := pyTrim value
  if raw = "" then ""
  else
    let raw := if pyStartsWith (pyLower raw) "mailto:" then
      match splitFirst raw ':' with
      | (_, some rest) => rest
      | (_, none) => raw
    else raw
    let raw := if raw.data.contains '?' then (splitFirst raw '?').1 else raw
    let parsed := parseaddrEmail raw
    let candidate := if parsed = "" then raw else parsed
    let candidate := String.mk (stripWhile isStripChar candidate.data)
    let candidate := String.mk (candidate.data.filter (fun c => c ≠ ' '))
    let candidate := String.mk (candidate.data.filter (fun c => c.toNat ≠ 0x200B))
    pyLower candidate

/-- Local-part characters of `EMAIL_REGEX` (case-insensitive
`[A-Z0-9.!#$%&'*+/=?^_\x60{|}~-]`). -/
def isEmailLocalChar (c : Char) : Bool :=
  c.isAlphanum ∨
  [33, 35, 36, 37, 38, 39, 42, 43, 45, 46, 47, 61, 63, 94, 95, 96,
   123, 124, 125, 126].contains c.toNat

/-- One domain label of `EMAIL_REGEX`:
`[A-Z0-9](?:[A-Z0-9-]{0,61}[A-Z0-9])?`. -/
def isEmailLabel (l : List Char) : Bool :=
  match l with
  | [] => false
  | [c] => c.isAlphanum
  | c :: rest =>
    c.isAlphanum ∧ (rest.getLastD c).isAlphanum ∧
    rest.dropLast.all (fun x => x.isAlphanum ∨ x = '-') ∧ l.length ≤ 63

/-- Python `s.split(sep)` with no limit, on a single-character separator. -/
def splitAllAux (sep : Char) : List Char → List Char → List (List Char)
  | [], acc => [acc.reverse]
  | c :: rest, acc =>
    if c = sep then acc.reverse :: splitAllAux sep rest []
    else splitAllAux sep rest (c :: acc)

/-- Full-string match of `EMAIL_REGEX` (the domain needs at least two labels). -/
def emailRegexMatch (s : String) : Bool :=
  match splitAllAux '@' s.data [] with
  | [localPart, domainPart] =>
    localPart ≠ [] ∧ localPart.all isEmailLocalChar ∧
    (let labels := splitAllAux '.' domainPart []
     2 ≤ labels.length ∧ labels.all isEmailLabel)
  | _ => false

/-- Embedding of `is_valid_email` from `app/modules/utils/email.py`. -/
def is_valid_email (value : String) : Bool :=
  let candidate := clean_email value
  if candidate = "" ∨ ¬ candidate.data.contains '@' then false
  else emailRegexMatch candidate

/-! ## `app/modules/send_email.py`

Timestamps are local seconds in the configured timezone; `astimezone`
between UTC and a fixed-offset zone is an order-preserving shift, so the
window and monotonicity statements are unaffected by it.  The two
`random.randint(MIN, MAX)` draws in `_compute_scheduled_for` /
`_pick_time_within_window` are the explicit inputs `d1`, `d2`. -/

def SEND_WINDOW_START : Nat := 9 * 3600 + 10 * 60
def SEND_WINDOW_END : Nat := 19 * 3600 + 45 * 60
def MIN_SEND_DELAY_SECONDS : Nat := 9 * 60
def MAX_SEND_DELAY_SECONDS : Nat := 16 * 60

/-- Embedding of `_pick_time_within_window(anchor_local, delay_seconds)`; `d2` is the fresh
`random.randint` drawn when the candidate overruns the window end. -/
def pick_time_within_window (anchorLocal d1 d2 : Nat) : Nat :=
  let day := anchorLocal / 86400
  let windowStart := day * 86400 + SEND_WINDOW_START
  let windowEnd := day * 86400 + SEND_WINDOW_END
  let baseWindow :=
    if anchorLocal < windowStart then (windowStart, windowEnd)
    else if windowEnd < anchorLocal then
      ((day + 1) * 86400 + SEND_WINDOW_START, (day + 1) * 86400 + SEND_WINDOW_END)
    else (anchorLocal, windowEnd)
  let base := baseWindow.1
  let we := baseWindow.2
  let candidate := base + d1
  if we < candidate then (base / 86400 + 1) * 86400 + SEND_WINDOW_START + d2
  else candidate

/-- Embedding of `SELECT scheduled_for ... ORDER BY scheduled_for DESC LIMIT 1` over the
stored rows: the maximum scheduled instant, if any. -/
def lastScheduled (scheduled : List Nat) : Option Nat :=
  match scheduled with
  | [] => none
  | x :: xs => some (xs.foldl max x)

/-- Embedding of `_compute_scheduled_for`: anchor at `max(last_scheduled, now)` and pick a
slot inside the send window. -/
def compute_scheduled_for (last : Option Nat) (nowLocal d1 d2 : Nat) : Nat :=
  let anchor := match last with
    | some l => if nowLocal < l then l else nowLocal
    | none => nowLocal
  pick_time_within_window anchor d1 d2

/-- An `outreach_messages` row (the fields `queue` writes). -/
structure OutreachRow where
  status : String
  scheduledFor : Option Nat
  lastError : Option String
deriving DecidableEq, Repr

/-- Embedding of `_queue_with_session` for the fields under study: validation gate, then
the computed (or explicitly supplied) `scheduled_for`.  Returns the inserted
row and the store with it appended. -/
def queueWithSession (store : List OutreachRow) (toEmail : String)
    (explicit : Option Nat) (nowLocal d1 d2 : Nat) : OutreachRow × List OutreachRow :=
  let normalized := clean_email toEmail
  if ¬ is_valid_email normalized then
    let row : OutreachRow := ⟨"skipped", none, some "invalid_email"⟩
    (row, store ++ [row])
  else
    let dt := match explicit with
      | some t => t
      | none => compute_scheduled_for (lastScheduled (store.filterMap (fun r => r.scheduledFor)))
          nowLocal d1 d2
    let row : OutreachRow := ⟨"scheduled", some dt, none⟩
    (row, store ++ [row])

/-- Embedding of `SMTPChannelSettings` fields used by routing and headers. -/
structure SmtpChannel where
  host : String
  port : Nat
  username : String
  password : String
  sender : String
  senderName : Option String
deriving DecidableEq, Repr

/-- Embedding of `_channel_configured`: `bool(channel.host and channel.port)`. -/
def channelConfigured (c : SmtpChannel) : Bool := c.host ≠ "" ∧ c.port ≠ 0

/-- Model of `email.utils.formataddr((name, addr))` for plain display names. -/
def formataddr (name addr : String) : String := name ++ " <" ++ addr ++ ">"

/-- Model of `email.utils.parseaddr` returning (display name, address). -/
def parseaddrPair (s : String) : String × String :=
  match splitFirst s '<' with
  | (before, some rest) => (pyTrim before, (splitFirst rest '>').1)
  | (_, none) => ("", s)

/-- Embedding of `_build_from_header`. -/
def buildFromHeader (channel : SmtpChannel) : String :=
  let rawSender := pyTrim channel.sender
  let senderName := match channel.senderName with
    | some n => pyTrim n
    | none => ""
  if senderName ≠ "" ∧ rawSender ≠ "" then formataddr senderName rawSender
  else
    let (nameFromValue, emailFromValue) := parseaddrPair rawSender
    if nameFromValue ≠ "" ∧ emailFromValue ≠ "" then formataddr nameFromValue emailFromValue
    else if rawSender ≠ "" then rawSender
    else if senderName ≠ "" then formataddr senderName "leadgen@example.com"
    else "leadgen@example.com"

/-- Embedding of `RouteContext` dataclass. -/
structure RouteContext where
  provider : String
  channel : SmtpChannel
  mxResult : MXResult
  replyTo : Option String
  fallback : Bool
deriving DecidableEq, Repr

/-- Channel configuration of the sender (gmail, yandex, default). -/
structure SenderChannels where
  gmail : SmtpChannel
  yandex : SmtpChannel
  defaultChannel : SmtpChannel
deriving DecidableEq, Repr

/-- Embedding of `_prepare_route` given the MX classification of the recipient domain. -/
def prepareRoute (ch : SenderChannels) (mxResult : MXResult) : RouteContext :=
  let provider := if mxResult.classification = MXClass.RU then "yandex" else "gmail"
  let channel := if provider = "yandex" then ch.yandex else ch.gmail
  let replyTo : Option String := none
  let fallback := false
  let (provider, channel, replyTo, fallback) :=
    if provider = "yandex" ∧ ¬ channelConfigured channel then
      ("gmail", ch.gmail, (none : Option String), true)
    else (provider, channel, replyTo, fallback)
  let channel :=
    if provider = "gmail" ∧ ¬ channelConfigured channel then ch.defaultChannel
    else channel
  { provider := provider, channel := channel, mxResult := mxResult,
    replyTo := replyTo, fallback := fallback }

/-- The headers of the outgoing `EmailMessage` that `deliver` manipulates. -/
structure MessageModel where
  subject : String
  toAddr : String
  fromHeader : Option String
  replyTo : Option String
deriving DecidableEq, Repr

/-- Embedding of `_apply_headers`: reset `From`/`Reply-To` and set them from the channel. -/
def applyHeaders (msg : MessageModel) (channel : SmtpChannel) (replyTo : Option String) :
    MessageModel :=
  { msg with fromHeader := some (buildFromHeader channel), replyTo := replyTo }

/-- Outcome of `_deliver_with_session` on the success path: the stored status,
the provider recorded in `metadata.route`, and the message as sent. -/
structure DeliverOutcome where
  status : String
  routeProvider : String
  mxClass : MXClass
  message : MessageModel
deriving DecidableEq, Repr

/-- Embedding of `_deliver_with_session` for a valid, non-opted-out recipient whose SMTP
send succeeds: route, rebuild headers, send, record `sent`. -/
def deliverSuccess (ch : SenderChannels) (mxResult : MXResult)
    (subject toEmail : String) : DeliverOutcome :=
  let normalized := clean_email toEmail
  let msg : MessageModel := { subject := subject, toAddr := normalized,
                              fromHeader := none, replyTo := none }
  let route := prepareRoute ch mxResult
  let msg := applyHeaders msg route.channel route.replyTo
  { status := "sent", routeProvider := route.provider,
    mxClass := route.mxResult.classification, message := msg }

/-! ## `app/modules/yandex_deferred.py`

HTTP is external: the reply the server would give is an explicit input, and
`httpRequests` counts issued requests.  `_respect_limits`'s cooperative
sleep blocks in real time; the timestamp recorded for the accepted call is
the provided `now`. -/

/-- Embedding of `RateLimitRule`: limit, window seconds, and the event deque (oldest first). -/
structure RateRule where
  limit : Nat
  window : Nat
  events : List Nat
deriving DecidableEq, Repr

/-- Embedding of `_respect_limits` on one rule: drop events older than the window, then
record the accepted call. -/
def respectRule (now : Nat) (r : RateRule) : RateRule :=
  { r with events := r.events.dropWhile (fun t => r.window < now - t) ++ [now] }

/-- Embedding of `_respect_limits` over all rules of an endpoint. -/
def respectLimits (now : Nat) (rules : List RateRule) : List RateRule :=
  rules.map (respectRule now)

/-- Typed errors of the deferred client. -/
inductive DeferredError
  | nightWindowViolation
  | yandexApiError (status : Nat)
deriving DecidableEq, Repr

/-- Embedding of `OperationResponse` fields used by the orchestration code. -/
structure OperationRespL where
  id : String
  done : Bool
deriving DecidableEq, Repr

/-- The server reply for one HTTP exchange. -/
structure HttpReply where
  status : Nat
  opId : String
  done : Bool
deriving DecidableEq, Repr

/-- Mutable state of `YandexDeferredClient`: both rate-limit rule sets and a
count of issued HTTP requests. -/
structure ClientState where
  createRules : List RateRule
  statusRules : List RateRule
  httpRequests : Nat
deriving DecidableEq, Repr

/-- Embedding of `create_deferred_search`: quiet-window gate, rate limits, POST; the
source checks `not (0 <= now_local.hour < 8)` and `hour` is a `Nat` here, so
the gate reduces to `¬ hour < 8`. -/
def create_deferred_search (enforceNightWindow : Bool) (localHour : Nat)
    (st : ClientState) (now : Nat) (http : HttpReply) :
    ClientState × Except DeferredError OperationRespL :=
  if enforceNightWindow ∧ ¬ localHour < 8 then
    (st, Except.error DeferredError.nightWindowViolation)
  else
    let st := { st with createRules := respectLimits now st.createRules }
    let st := { st with httpRequests := st.httpRequests + 1 }
    if 400 ≤ http.status then (st, Except.error (DeferredError.yandexApiError http.status))
    else (st, Except.ok ⟨http.opId, http.done⟩)

/-- Embedding of `get_operation`: rate limits and GET, with no quiet-window gate. -/
def get_operation (st : ClientState) (now : Nat) (http : HttpReply) :
    ClientState × Except DeferredError OperationRespL :=
  let st := { st with statusRules := respectLimits now st.statusRules }
  let st := { st with httpRequests := st.httpRequests + 1 }
  if 400 ≤ http.status then (st, Except.error (DeferredError.yandexApiError http.status))
  else (st, Except.ok ⟨http.opId, http.done⟩)

/-! ## `app/modules/query_generator.py`

UTC timestamps are seconds (`now : Nat`); `datetime.combine(date, t, tz)`
followed by `astimezone(utc)` is `day * 86400 + t - tzOffset` for a
fixed-offset zone.  `hashlib.sha1` is again a function parameter. -/

/-- The configuration fields `QueryGenerator` reads (`DEFAULT_CONFIG` layout). -/
structure GenConfig where
  language : String
  windowStartTod : Nat
  windowEndTod : Nat
  tzOffset : Int
  spacingSeconds : Nat
  regionFallbackLr : Nat
  maxQueriesPerNiche : Nat
  triggers : List String
  negSites : List String
  regionsLr : List (String × Nat)
deriving DecidableEq, Repr

/-- Embedding of `NicheRow` dataclass. -/
structure NicheRow where
  rowIndex : Nat
  niche : String
  city : Option String
  country : Option String
  batchTag : Option String
deriving DecidableEq, Repr

/-- Embedding of `GeneratedQuery` fields under study. -/
structure GeneratedQueryL where
  queryText : String
  queryHash : String
  regionCode : Nat
  scheduledFor : Int
  trigger : Option String
deriving DecidableEq, Repr

/-- Embedding of `_normalize_key`. -/
def normalizeKey (v : Option String) : String := pyLower (pyTrim (v.getD ""))

/-- Embedding of `_resolve_region`. -/
def resolveRegion (cfg : GenConfig) (city country : Option String) : Nat :=
  let regions := cfg.regionsLr.map (fun kv => (normalizeKey (some kv.1), kv.2))
  let cityKey := normalizeKey city
  match if cityKey ≠ "" then regions.lookup cityKey else none with
  | some code => code
  | none =>
    let countryKey := normalizeKey country
    match if countryKey ≠ "" then regions.lookup countryKey else none with
    | some code => code
    | none => cfg.regionFallbackLr

/-- Embedding of `_negatives`: build the `-site:`/`-domain:`/`-host:` clause. -/
def negativesStr (cfg : GenConfig) : String :=
  joinSpace (cfg.negSites.filterMap (fun entry =>
    let raw := pyTrim entry
    if raw = "" then none
    else if raw.data.contains ':' then
      let (pfx, valueOpt) := splitFirst raw ':'
      let pfx := pyLower (pyTrim pfx)
      let value := pyTrim (valueOpt.getD "")
      if (pfx = "site" ∨ pfx = "domain" ∨ pfx = "host") ∧ value ≠ "" then
        some ("-" ++ pfx ++ ":" ++ value)
      else some ("-site:" ++ raw)
    else some ("-site:" ++ raw)))

/-- Embedding of `_place_fragment`. -/
def placeFragment (row : NicheRow) : String :=
  match row.city with
  | some c => if c ≠ "" then pyTrim c else
      match row.country with
      | some c2 => if c2 ≠ "" then pyTrim c2 else ""
      | none => ""
  | none =>
    match row.country with
    | some c2 => if c2 ≠ "" then pyTrim c2 else ""
    | none => ""

/-- Loop of `_build_queries_texts` over the sliced trigger list, with the
`len(queries) >= max_queries` break. -/
def buildVariants (baseTokens : List String) (negatives : String) (maxQ : Nat) :
    List String → List (String × Option String) → List (String × Option String)
  | [], acc => acc
  | t :: rest, acc =>
    let q := joinSpace (baseTokens ++ [t]) ++ (if negatives ≠ "" then " " ++ negatives else "")
    let acc := acc ++ [(q, some t)]
    if maxQ ≤ acc.length then acc else buildVariants baseTokens negatives maxQ rest acc

/-- Embedding of `_build_queries_texts`. -/
def buildQueriesTexts (cfg : GenConfig) (row : NicheRow) : List (String × Option String) :=
  let baseTokens := ["lang:" ++ cfg.language, pyTrim row.niche]
  let place := placeFragment row
  let baseTokens := if place ≠ "" then baseTokens ++ [place] else baseTokens
  let negatives := negativesStr cfg
  let baseQuery := joinSpace baseTokens ++ (if negatives ≠ "" then " " ++ negatives else "")
  let queries := [(baseQuery, (none : Option String))]
  let available := cfg.triggers.take (cfg.maxQueriesPerNiche - 1)
  buildVariants baseTokens negatives cfg.maxQueriesPerNiche available queries

/-- Embedding of `_window_bounds(reference_date)`: UTC window start and duration. -/
def windowBounds (cfg : GenConfig) (refDay : Nat) : Int × Int :=
  let startLocal : Int := (refDay : Int) * 86400 + (cfg.windowStartTod : Int) - cfg.tzOffset
  let endLocal : Int := (refDay : Int) * 86400 + (cfg.windowEndTod : Int) - cfg.tzOffset
  let endLocal := if cfg.windowEndTod ≤ cfg.windowStartTod then endLocal + 86400 else endLocal
  (startLocal, endLocal - startLocal)

/-- Embedding of `_next_window_start(now)`: the window start to schedule from and the
window end, in UTC seconds. -/
def nextWindowStart (cfg : GenConfig) (now : Nat) : Int × Int :=
  let bounds := windowBounds cfg (now / 86400)
  let startToday := bounds.1
  let duration := bounds.2
  if cfg.windowEndTod ≤ cfg.windowStartTod ∧ (now : Int) < startToday ∧
     startToday - 86400 ≤ (now : Int) ∧ (now : Int) ≤ startToday - 86400 + duration then
    ((now : Int), startToday - 86400 + duration)
  else
    let endToday := startToday + duration
    if startToday ≤ (now : Int) ∧ (now : Int) ≤ endToday then ((now : Int), endToday)
    else if (now : Int) < startToday then (startToday, endToday)
    else (startToday + 86400, startToday + 86400 + duration)

/-- Embedding of `QueryGenerator.generate`. -/
def generate (cfg : GenConfig) (sha1Hex : String → String) (row : NicheRow) (now : Nat) :
    List GeneratedQueryL :=
  let queriesWithTriggers := buildQueriesTexts cfg row
  let (windowStart, windowEnd) := nextWindowStart cfg now
  let scheduledTimes :=
    ((List.range queriesWithTriggers.length).map
      (fun (i : Nat) => windowStart + (cfg.spacingSeconds : Int) * (i : Int))).takeWhile
      (fun t => ¬ windowEnd < t)
  let regionCode := resolveRegion cfg row.city row.country
  (scheduledTimes.zip queriesWithTriggers).map (fun st =>
    let cleaned := joinSpace (pySplitWs st.2.1)
    { queryText := cleaned
      queryHash := sha1Hex (cleaned ++ "|" ++ toString regionCode)
      regionCode := regionCode
      scheduledFor := st.1
      trigger := st.2.2 })

/-! ## `app/modules/deduplicate.py`

A `companies` row carries the columns the service reads and writes; `""`
models a NULL text column.  The SQL `UPDATE ... WHERE id = :id` statements
are `applyUpdate`; the hash-refresh loop reads a snapshot and touches each
row at most once (ids are a primary key), which a pointwise map expresses. -/

/-- A `companies` row as read by `DeduplicationService`. -/
structure CompanyRow where
  id : String
  name : String
  canonicalDomain : String
  websiteUrl : String
  dedupeHash : String
  status : String
  optOut : Bool
  createdAt : Nat
deriving DecidableEq, Repr

/-- One step of `_refresh_dedupe_hashes`: recompute the hash from
`canonical_domain or website_url or name` and update the row when changed. -/
def refreshRow (sha1Hex : String → String) (r : CompanyRow) : CompanyRow :=
  let domainSource :=
    if r.canonicalDomain ≠ "" then r.canonicalDomain
    else if r.websiteUrl ≠ "" then r.websiteUrl
    else r.name
  let dedupeHash := build_company_dedupe_key sha1Hex r.name domainSource
  if dedupeHash ≠ r.dedupeHash then
    { r with dedupeHash := dedupeHash, canonicalDomain := normalize_domain domainSource }
  else r

/-- Embedding of `_refresh_dedupe_hashes` over the whole table. -/
def refreshPhase (sha1Hex : String → String) (db : List CompanyRow) : List CompanyRow :=
  db.map (refreshRow sha1Hex)

/-- Distinct keys in first-appearance order (the `defaultdict` insertion
order of `_group_duplicates`). -/
def dedupKeysAux : List String → List String → List String
  | [], _ => []
  | x :: xs, seen => if x ∈ seen then dedupKeysAux xs seen else x :: dedupKeysAux xs (x :: seen)

/-- The stripped, non-empty `dedupe_hash` keys of the table, in order. -/
def dedupKeysOf (db : List CompanyRow) : List String :=
  dedupKeysAux ((db.map (fun r => pyTrim r.dedupeHash)).filter (fun k => k ≠ "")) []

/-- Embedding of `groups[dedupe_hash]`: the rows whose stripped hash equals the key, in
table order. -/
def groupOf (db : List CompanyRow) (k : String) : List CompanyRow :=
  db.filter (fun r => pyTrim r.dedupeHash = k)

/-- The sort key `(created_at, id)` of `_group_duplicates`, as a strict order. -/
def rowKeyLt (a b : CompanyRow) : Bool :=
  a.createdAt < b.createdAt ∨ (a.createdAt = b.createdAt ∧ strLtB a.id.data b.id.data)

/-- Stable insertion of a row into a `(created_at, id)`-sorted list. -/
def insertSorted (x : CompanyRow) : List CompanyRow → List CompanyRow
  | [] => [x]
  | y :: ys => if rowKeyLt y x then y :: insertSorted x ys else x :: y :: ys

/-- Stable sort by `(created_at, id)` (`sorted(values, key=...)`). -/
def sortRows : List CompanyRow → List CompanyRow
  | [] => []
  | x :: xs => insertSorted x (sortRows xs)

/-- Embedding of `primary_ids`: per group, the id of the first row in sort order (a
single-row group is its own primary without sorting, which coincides with
the sorted head). -/
def primaryIds (db : List CompanyRow) : List String :=
  (dedupKeysOf db).filterMap (fun k => ((sortRows (groupOf db k)).head?).map (fun r => r.id))

/-- Embedding of `duplicate_ids`: per group, the ids after the sorted head. -/
def duplicateIds (db : List CompanyRow) : List String :=
  (dedupKeysOf db).flatMap (fun k => ((sortRows (groupOf db k)).tail).map (fun r => r.id))

/-- Embedding of `UPDATE companies SET ... WHERE id = :id` applied to the table. -/
def applyUpdate (db : List CompanyRow) (i : String) (f : CompanyRow → CompanyRow) :
    List CompanyRow :=
  db.map (fun r => if r.id = i then f r else r)

/-- The duplicate update: `SET status='duplicate', opt_out=TRUE ... WHERE id
= :id AND status <> 'duplicate'`. -/
def markDup (r : CompanyRow) : CompanyRow :=
  if r.status ≠ "duplicate" then { r with status := "duplicate", optOut := true } else r

/-- The primary update: demote `duplicate` back to `new`, clear `opt_out`. -/
def promoteRow (r : CompanyRow) : CompanyRow :=
  { r with status := if r.status = "duplicate" then "new" else r.status, optOut := false }

/-- Embedding of `_apply_duplicate_updates`: first the duplicate pass, then the primary
pass. -/
def applyDuplicateUpdates (db : List CompanyRow) (prim dups : List String) :
    List CompanyRow :=
  let db := dups.foldl (fun acc i => applyUpdate acc i markDup) db
  prim.foldl (fun acc i => applyUpdate acc i promoteRow) db

/-- Embedding of `DeduplicationService.run` (`_run_with_session`): refresh hashes, group,
apply the updates, in one transaction. -/
def runDedup (sha1Hex : String → String) (db : List CompanyRow) : List CompanyRow :=
  let db' := refreshPhase sha1Hex db
  applyDuplicateUpdates db' (primaryIds db') (duplicateIds db')

/-- Boolean reading of claim C5's postcondition on a table: in every
non-empty `dedupe_hash` group, the sorted-first row has a non-duplicate
status with `opt_out=false` and every other row is `duplicate` with
`opt_out=true`. -/
def c5ClaimHolds (db : List CompanyRow) : Bool :=
  (dedupKeysOf db).all (fun k =>
    match sortRows (groupOf db k) with
    | [] => true
    | p :: ds =>
      (p.status ≠ "duplicate" ∧ p.optOut = false) ∧
      ds.all (fun r => r.status = "duplicate" ∧ r.optOut = true))

/-! ## `app/modules/enrich_contacts.py`

BeautifulSoup is external: a fetched page is modelled as the anchor list
(`soup.find_all("a")`, each with `href` attribute and anchor text) plus the
body text.  HTTP fetching is a function from candidate URL to an optional
page (`none` models a transport error, an HTTP status `>= 400`, or an empty
body, all of which yield a falsy `html`). -/

/-- One `<a>` element: the `href` attribute (`""` when absent, as
`anchor.get("href") or ""`) and `anchor.get_text(" ", strip=True)`. -/
structure AnchorEl where
  href : String
  text : String
deriving DecidableEq, Repr

/-- A parsed candidate page. -/
structure HtmlPage where
  anchors : List AnchorEl
  bodyText : String
deriving DecidableEq, Repr

/-- Embedding of `ContactRecord` dataclass; `quality_score` is kept as an exact rational. -/
structure ContactRecord where
  contactType : String
  value : String
  sourceUrl : String
  qualityScore : ℚ
  origin : String
  label : Option String
deriving DecidableEq, Repr

/-- Embedding of `href.split(":", 1)[1].split("?", 1)[0]` on a stripped href: the mailto
local part before any query. -/
def mailtoValue (href : String) : String :=
  let href := pyTrim href
  let afterColon := match splitFirst href ':' with
    | (_, some tail) => tail
    | (_, none) => href
  (splitFirst afterColon '?').1

/-- Whether a stripped `href` is a `mailto:` link. -/
def isMailtoHref (href : String) : Bool := pyStartsWith (pyLower (pyTrim href)) "mailto:"

/-- Anchor loop of `_extract_contacts_from_html`: the first anchor whose
`href` starts with `mailto:` yields the email record and breaks the loop. -/
def firstMailtoRecord (sourceUrl : String) : List AnchorEl → Option ContactRecord
  | [] => none
  | anchor :: rest =>
    if isMailtoHref anchor.href then
      some { contactType := "email", value := mailtoValue anchor.href,
             sourceUrl := sourceUrl, qualityScore := 1, origin := "mailto",
             label := some (if anchor.text = "" then "mailto" else anchor.text) }
    else firstMailtoRecord sourceUrl rest

/-- Embedding of `_extract_contacts_from_html`: only `mailto:` anchors produce records;
`tel:` anchors and the body text are never consulted. -/
def extract_contacts_from_html (page : HtmlPage) (sourceUrl : String) :
    List ContactRecord :=
  match firstMailtoRecord sourceUrl page.anchors with
  | some record => [record]
  | none => []

/-- Candidate-URL loop of `_enrich_with_session` restricted to contact
collection: fetch each candidate in order, take the first email record, stop
as soon as one is found. -/
def enrichCollect (fetch : String → Option HtmlPage) : List String → Option ContactRecord
  | [] => none
  | url :: rest =>
    match fetch url with
    | none => enrichCollect fetch rest
    | some page =>
      match (extract_contacts_from_html page url).find? (fun c => c.contactType = "email") with
      | some record => some record
      | none => enrichCollect fetch rest

/-! ## Concrete inputs used by the claim theorems -/

/-- A regular SERP document (the sample company doc of the test payload). -/
def exampleDoc : XmlDoc where
  url := some "https://example.com/products"
  lurl := none
  domain := some "example.com"
  title := some "Example Company"
  name := none
  passages := [some "Лучшее решение для бизнеса"]
  properties := [(some "lang", some "ru")]

/-- A SERP document on `avito.ru`, a member of `EXCLUDED_DOMAINS`. -/
def avitoDoc : XmlDoc where
  url := some "https://avito.ru/item"
  lurl := none
  domain := some "avito.ru"
  title := some "Avito"
  name := none
  passages := []
  properties := []

/-- Gmail channel configuration used in the delivery scenario. -/
def gmailChannel : SmtpChannel where
  host := "smtp.gmail.com"
  port := 587
  username := "leadgen"
  password := "secret"
  sender := "leadgen@example.com"
  senderName := some "Gmail Sender"

/-- Fully configured Yandex channel used in the delivery scenario. -/
def yandexChannel : SmtpChannel where
  host := "smtp.yandex.test"
  port := 465
  username := "sender@yandex.ru"
  password := "secret"
  sender := "sender@yandex.ru"
  senderName := some "Yandex Sender"

/-- The sender's channel set with both channels configured. -/
def senderChannels : SenderChannels :=
  ⟨gmailChannel, yandexChannel, gmailChannel⟩

/-- Router settings of the MX test fixtures. -/
def routerSettings : RoutingSettingsL where
  enabled := true
  mxCacheTtlHours := 1
  ruMxPatterns := ["mx.yandex.net", "mx.mail.ru"]
  forceRuDomains := ["mail.ru"]

/-! ## Claim C1 -/

/-- Claim C1 (code bug): `parse_serp_xml` never consults `EXCLUDED_DOMAINS`,
so ingesting a payload with two docs of which one is on an excluded domain
parses both documents, inserts two `serp_results` rows and upserts two
`companies` rows — the repository's own test
(`test_serp_ingest_skips_excluded_domains`) and the spec require the
excluded document to be skipped (exactly one row). -/
theorem c1_ingest_keeps_excluded_domain :
    (parse_serp_xml [exampleDoc, avitoDoc]).map (fun d => d.domain) =
      ["example.com", "avito.ru"] ∧
    "avito.ru" ∈ EXCLUDED_DOMAINS ∧
    (ingest (fun s => s) "op-1" [exampleDoc, avitoDoc] ⟨[], []⟩).serpResults.length = 2 ∧
    (ingest (fun s => s) "op-1" [exampleDoc, avitoDoc] ⟨[], []⟩).companies.length = 2 := by
  refine ⟨by decide, by decide, by decide, by decide⟩

/-! ## Claim C2 -/

/-- Claim C2 (code bug): for a recipient classified `RU`, `deliver` routes
through the yandex channel and records status `sent` with
`metadata.route.provider = "yandex"`, but `_prepare_route` leaves `reply_to`
as `None`, so the message carries no `Reply-To` header — the repository's
own test (`test_ru_classification_routes_to_yandex`) and the spec require
`Reply-To` to equal the gmail channel's `From` header. -/
theorem c2_ru_route_sends_without_reply_to :
    (deliverSuccess senderChannels ⟨MXClass.RU, ["mx.yandex.net"], false⟩
        "Subject" "lead@yandex.ru").status = "sent" ∧
    (deliverSuccess senderChannels ⟨MXClass.RU, ["mx.yandex.net"], false⟩
        "Subject" "lead@yandex.ru").routeProvider = "yandex" ∧
    (deliverSuccess senderChannels ⟨MXClass.RU, ["mx.yandex.net"], false⟩
        "Subject" "lead@yandex.ru").message.replyTo = none ∧
    buildFromHeader gmailChannel = "Gmail Sender <leadgen@example.com>" := by
  refine ⟨by decide, by decide, by decide, by decide⟩

/-! ## Cache lemmas shared by the MX router claims -/

/-- Finding by key in a list whose last element carries the key and whose
other elements do not. -/
theorem findKeyAppended (l : List CacheEntry) (e : CacheEntry) (key : String)
    (he : e.1 = key) (hl : ∀ x ∈ l, x.1 ≠ key) :
    (l ++ [e]).find? (fun x => x.1 = key) = some e := by
  induction l with
  | nil => simp [List.find?, he]
  | cons x xs ih =>
    have hx : ¬ (x.1 = key) := hl x (List.mem_cons_self x xs)
    rw [List.cons_append, List.find?_cons_of_neg _ (by simpa using hx)]
    exact ih (fun y hy => hl y (List.mem_cons_of_mem x hy))

/-- A freshly stored cache entry is found again (not expired) by a lookup at
the same instant, for a positive TTL and capacity. -/
theorem cacheGet_cacheSet_self (c : MXCache) (key : String) (v : MXClass × List String)
    (now ttl maxsize : Nat) (httl : 0 < ttl) (hmax : 0 < maxsize) :
    (cacheGet (cacheSet c key v now ttl maxsize) key now).1 = some v := by
  unfold cacheSet cacheGet
  have hl : ∀ x ∈ c.filter (fun e => e.1 ≠ key), x.1 ≠ key := by
    intro x hx
    simpa using (List.of_mem_filter hx)
  by_cases hlen :
      maxsize < (c.filter (fun e => e.1 ≠ key) ++ [(key, now + ttl, v)]).length
  · rw [if_pos hlen]
    match hfc : c.filter (fun e => e.1 ≠ key) with
    | [] =>
      rw [hfc] at hlen
      simp at hlen
      omega
    | x :: xs =>
      rw [hfc] at hlen ⊢
      rw [List.cons_append, List.drop_one, List.tail_cons]
      rw [findKeyAppended xs (key, now + ttl, v) key rfl
        (fun y hy => hl y (hfc ▸ List.mem_cons_of_mem x hy))]
      simp only []
      rw [if_neg (by omega)]
  · rw [if_neg hlen]
    rw [findKeyAppended _ (key, now + ttl, v) key rfl hl]
    simp only []
    rw [if_neg (by omega)]

/-! ## Claim C3 -/

/-- Claim C3 (counterexample): a `classify` call whose DNS lookup fails does
return `UNKNOWN` with empty records, but it does not leave the cache
unchanged — starting from the empty cache, the cache afterwards holds the
UNKNOWN resolution and a lookup within the TTL finds it. -/
theorem c3_unknown_is_cached_counterexample :
    (classify routerSettings [] 0 "unreachable.example" DnsOutcome.err).result =
      ⟨MXClass.UNKNOWN, [], false⟩ ∧
    (classify routerSettings [] 0 "unreachable.example" DnsOutcome.err).cache ≠ [] ∧
    (cacheGet (classify routerSettings [] 0 "unreachable.example" DnsOutcome.err).cache
        "mx:unreachable.example" 10).1 = some (MXClass.UNKNOWN, []) := by
  refine ⟨by decide, by decide, by decide⟩

/-- Claim C3 (amended): when routing is enabled, the domain is non-empty,
not force-listed and not cached, a DNS failure after both resolver attempts
makes `classify` return `UNKNOWN` with empty records — but the UNKNOWN
result is stored in the TTL cache like any successful resolution, so the
cache may hold `UNKNOWN` entries. -/
theorem c3_unknown_cached_amended (st : RoutingSettingsL) (cache : MXCache)
    (now : Nat) (domain : String)
    (hen : st.enabled = true)
    (hne : pyLower (pyTrim domain) ≠ "")
    (hforce : pyLower (pyTrim domain) ∉ forceRuOf st)
    (hmiss : (cacheGet cache ("mx:" ++ pyLower (pyTrim domain)) now).1 = none) :
    (classify st cache now domain DnsOutcome.err).result = ⟨MXClass.UNKNOWN, [], false⟩ ∧
    (cacheGet (classify st cache now domain DnsOutcome.err).cache
        ("mx:" ++ pyLower (pyTrim domain)) now).1 = some (MXClass.UNKNOWN, []) := by
  unfold classify
  rw [hen]
  simp only [Bool.true_eq_false, if_false, if_neg hne, if_neg hforce]
  have hcg : cacheGet cache ("mx:" ++ pyLower (pyTrim domain)) now =
      (none, (cacheGet cache ("mx:" ++ pyLower (pyTrim domain)) now).2) := by
    rw [← hmiss]
  rw [hcg]
  refine ⟨rfl, ?_⟩
  exact cacheGet_cacheSet_self _ _ _ _ _ _ (by unfold ttlSecondsOf; omega) (by omega)

/-- Claim C3 (witness for the amended theorem). -/
theorem c3_unknown_cached_witness :
    routerSettings.enabled = true ∧
    pyLower (pyTrim "unreachable.example") ≠ "" ∧
    pyLower (pyTrim "unreachable.example") ∉ forceRuOf routerSettings ∧
    (cacheGet ([] : MXCache) ("mx:" ++ pyLower (pyTrim "unreachable.example")) 0).1 = none ∧
    ((classify routerSettings [] 0 "unreachable.example" DnsOutcome.err).result =
        ⟨MXClass.UNKNOWN, [], false⟩ ∧
      (cacheGet (classify routerSettings [] 0 "unreachable.example" DnsOutcome.err).cache
          ("mx:" ++ pyLower (pyTrim "unreachable.example")) 0).1 =
        some (MXClass.UNKNOWN, [])) :=
  ⟨by decide, by decide, by decide, by decide,
    c3_unknown_cached_amended routerSettings [] 0 "unreachable.example"
      (by decide) (by decide) (by decide) (by decide)⟩

/-! ## Claim C9 -/

/-- Claim C9 (counterexample): with `force_ru_domains = {mail.ru}`, the
second `classify("mail.ru")` call within the TTL returns
`{RU, [], ttl_hit := false}` — not `ttl_hit = true` as claimed — because the
force-list branch short-circuits before the cache lookup. -/
theorem c9_force_ru_second_call_counterexample :
    (classify routerSettings
        (classify routerSettings [] 0 "mail.ru" DnsOutcome.err).cache
        10 "mail.ru" DnsOutcome.err).result = ⟨MXClass.RU, [], false⟩ ∧
    (classify routerSettings
        (classify routerSettings [] 0 "mail.ru" DnsOutcome.err).cache
        10 "mail.ru" DnsOutcome.err).dnsQueries = 0 := by
  refine ⟨by decide, by decide⟩

/-- Claim C9 (amended): for a force-listed domain every `classify` call —
first or repeated, whatever the cache state — returns
`{RU, [], ttl_hit := false}` and issues zero DNS queries; the call stores
`(RU, [])` in the cache, but the force branch precedes the cache lookup, so
`ttl_hit` is never `true` for such a domain. -/
theorem c9_force_ru_amended (st : RoutingSettingsL) (cache : MXCache) (now : Nat)
    (domain : String) (dns : DnsOutcome)
    (hen : st.enabled = true)
    (hne : pyLower (pyTrim domain) ≠ "")
    (hforce : pyLower (pyTrim domain) ∈ forceRuOf st) :
    (classify st cache now domain dns).result = ⟨MXClass.RU, [], false⟩ ∧
    (classify st cache now domain dns).dnsQueries = 0 ∧
    (cacheGet (classify st cache now domain dns).cache
        ("mx:" ++ pyLower (pyTrim domain)) now).1 = some (MXClass.RU, []) := by
  unfold classify
  rw [hen]
  simp only [Bool.true_eq_false, if_false, if_neg hne, if_pos hforce]
  refine ⟨by simp, by simp, ?_⟩
  exact cacheGet_cacheSet_self _ _ _ _ _ _ (by unfold ttlSecondsOf; omega) (by omega)

/-- Claim C9 (witness for the amended theorem). -/
theorem c9_force_ru_witness :
    routerSettings.enabled = true ∧
    pyLower (pyTrim "mail.ru") ≠ "" ∧
    pyLower (pyTrim "mail.ru") ∈ forceRuOf routerSettings ∧
    ((classify routerSettings [] 0 "mail.ru" DnsOutcome.err).result =
        ⟨MXClass.RU, [], false⟩ ∧
      (classify routerSettings [] 0 "mail.ru" DnsOutcome.err).dnsQueries = 0 ∧
      (cacheGet (classify routerSettings [] 0 "mail.ru" DnsOutcome.err).cache
          ("mx:" ++ pyLower (pyTrim "mail.ru")) 0).1 = some (MXClass.RU, [])) :=
  ⟨by decide, by decide, by decide,
    c9_force_ru_amended routerSettings [] 0 "mail.ru" DnsOutcome.err
      (by decide) (by decide) (by decide)⟩

/-! ## Claim C8 -/

/-- Claim C8: with `enforce_night_window = true` and the local hour outside
`[00:00, 07:59]` (hour ≥ 8), `create_deferred_search` fails with
`NightWindowViolation` and leaves the client state untouched — no HTTP
request is issued and the rate-limit queues do not advance; `get_operation`
is never gated: it cannot produce a `NightWindowViolation` for any input. -/
theorem c8_night_window_gate (localHour : Nat) (st : ClientState) (now : Nat)
    (http : HttpReply) (hhour : 8 ≤ localHour) :
    create_deferred_search true localHour st now http =
      (st, Except.error DeferredError.nightWindowViolation) ∧
    ∀ (st' : ClientState) (now' : Nat) (http' : HttpReply),
      (get_operation st' now' http').2 ≠ Except.error DeferredError.nightWindowViolation := by
  constructor
  · unfold create_deferred_search
    rw [if_pos ⟨rfl, by omega⟩]
  · intro st' now' http'
    unfold get_operation
    by_cases h : 400 ≤ http'.status
    · rw [if_pos h]; simp
    · rw [if_neg h]; simp

/-- Claim C8 (witness). -/
theorem c8_night_window_gate_witness :
    8 ≤ 10 ∧
    (create_deferred_search true 10 ⟨[], [], 0⟩ 0 ⟨200, "op-1", false⟩ =
        (⟨[], [], 0⟩, Except.error DeferredError.nightWindowViolation) ∧
      ∀ (st' : ClientState) (now' : Nat) (http' : HttpReply),
        (get_operation st' now' http').2 ≠ Except.error DeferredError.nightWindowViolation) :=
  ⟨by decide, c8_night_window_gate 10 ⟨[], [], 0⟩ 0 ⟨200, "op-1", false⟩ (by decide)⟩

/-! ## Scheduling lemmas for the send window -/

/-- Embedding of `_pick_time_within_window` lands in `[09:10, 19:45]` local time whenever
both random delays respect `MAX_SEND_DELAY_SECONDS`. -/
theorem pick_time_mem_window (anchor d1 d2 : Nat)
    (hd1 : d1 ≤ MAX_SEND_DELAY_SECONDS) (hd2 : d2 ≤ MAX_SEND_DELAY_SECONDS) :
    SEND_WINDOW_START ≤ pick_time_within_window anchor d1 d2 % 86400 ∧
    pick_time_within_window anchor d1 d2 % 86400 ≤ SEND_WINDOW_END := by
  simp only [MAX_SEND_DELAY_SECONDS] at hd1 hd2
  simp only [pick_time_within_window, SEND_WINDOW_START, SEND_WINDOW_END]
  split_ifs <;> dsimp only <;> omega

/-- Embedding of `_pick_time_within_window` never schedules before its anchor. -/
theorem pick_time_ge_anchor (anchor d1 d2 : Nat) :
    anchor ≤ pick_time_within_window anchor d1 d2 := by
  simp only [pick_time_within_window, SEND_WINDOW_START, SEND_WINDOW_END]
  split_ifs <;> dsimp only <;> omega

/-- The fold used by `lastScheduled` bounds the seed and every element. -/
theorem le_foldl_max (a : Nat) (l : List Nat) :
    a ≤ l.foldl max a ∧ ∀ x ∈ l, x ≤ l.foldl max a := by
  induction l generalizing a with
  | nil => exact ⟨Nat.le_refl a, by intro x hx; cases hx⟩
  | cons b bs ih =>
    simp only [List.foldl_cons]
    refine ⟨Nat.le_trans (Nat.le_max_left a b) (ih (max a b)).1, ?_⟩
    intro x hx
    rcases List.mem_cons.mp hx with hxb | hxs
    · subst hxb
      exact Nat.le_trans (Nat.le_max_right a x) (ih (max a x)).1
    · exact (ih (max a b)).2 x hxs

/-- Every stored `scheduled_for` is bounded by `lastScheduled`. -/
theorem le_lastScheduled (l : List Nat) (x : Nat) (hx : x ∈ l) :
    ∃ m, lastScheduled l = some m ∧ x ≤ m := by
  match l with
  | [] => cases hx
  | a :: as =>
    refine ⟨as.foldl max a, rfl, ?_⟩
    rcases List.mem_cons.mp hx with hxa | hxs
    · exact hxa ▸ (le_foldl_max a as).1
    · exact (le_foldl_max a as).2 x hxs

/-! ## Claim C6 -/

/-- Claim C6: a `queue` call with a valid recipient and no explicit
`scheduled_for` stores a `scheduled` row whose computed `scheduled_for`
falls inside the daily send window `[09:10, 19:45]` local time, for any
random delays drawn from `[MIN_SEND_DELAY, MAX_SEND_DELAY]`. -/
theorem c6_scheduled_within_send_window (store : List OutreachRow) (toEmail : String)
    (nowLocal d1 d2 : Nat)
    (hvalid : is_valid_email (clean_email toEmail) = true)
    (hd1 : MIN_SEND_DELAY_SECONDS ≤ d1 ∧ d1 ≤ MAX_SEND_DELAY_SECONDS)
    (hd2 : MIN_SEND_DELAY_SECONDS ≤ d2 ∧ d2 ≤ MAX_SEND_DELAY_SECONDS) :
    (queueWithSession store toEmail none nowLocal d1 d2).1.status = "scheduled" ∧
    ∃ t, (queueWithSession store toEmail none nowLocal d1 d2).1.scheduledFor = some t ∧
      SEND_WINDOW_START ≤ t % 86400 ∧ t % 86400 ≤ SEND_WINDOW_END := by
  simp only [queueWithSession, hvalid, not_true, if_false]
  refine ⟨trivial, ?_⟩
  refine ⟨compute_scheduled_for
    (lastScheduled (store.filterMap (fun r => r.scheduledFor))) nowLocal d1 d2, rfl, ?_⟩
  unfold compute_scheduled_for
  exact pick_time_mem_window _ d1 d2 hd1.2 hd2.2

/-- Claim C6 (witness). -/
theorem c6_scheduled_within_send_window_witness :
    is_valid_email (clean_email "lead@yandex.ru") = true ∧
    (MIN_SEND_DELAY_SECONDS ≤ 600 ∧ 600 ≤ MAX_SEND_DELAY_SECONDS) ∧
    (MIN_SEND_DELAY_SECONDS ≤ 700 ∧ 700 ≤ MAX_SEND_DELAY_SECONDS) ∧
    ((queueWithSession [] "lead@yandex.ru" none 864000 600 700).1.status = "scheduled" ∧
      ∃ t, (queueWithSession [] "lead@yandex.ru" none 864000 600 700).1.scheduledFor = some t ∧
        SEND_WINDOW_START ≤ t % 86400 ∧ t % 86400 ≤ SEND_WINDOW_END) :=
  ⟨by decide, by decide, by decide,
    c6_scheduled_within_send_window [] "lead@yandex.ru" 864000 600 700
      (by decide) (by decide) (by decide)⟩

/-! ## Claim C7 -/

/-- Claim C7: across successive `queue` calls on the same store, the computed
`scheduled_for` never precedes any previously stored one — the anchor is
`max(last stored scheduled_for, now)` and the picked slot is at or after the
anchor. -/
theorem c7_scheduled_monotone (store : List OutreachRow) (toEmail : String)
    (nowLocal d1 d2 x : Nat)
    (hvalid : is_valid_email (clean_email toEmail) = true)
    (hx : x ∈ store.filterMap (fun r => r.scheduledFor)) :
    ∃ t, (queueWithSession store toEmail none nowLocal d1 d2).1.scheduledFor = some t ∧
      x ≤ t := by
  simp only [queueWithSession, hvalid, not_true, if_false]
  refine ⟨compute_scheduled_for
    (lastScheduled (store.filterMap (fun r => r.scheduledFor))) nowLocal d1 d2, rfl, ?_⟩
  obtain ⟨m, hm, hxm⟩ := le_lastScheduled _ x hx
  unfold compute_scheduled_for
  rw [hm]
  have hanchor : m ≤ if nowLocal < m then m else nowLocal := by
    split_ifs <;> omega
  exact Nat.le_trans (Nat.le_trans hxm hanchor)
    (pick_time_ge_anchor (if nowLocal < m then m else nowLocal) d1 d2)

/-- Claim C7 (witness). -/
theorem c7_scheduled_monotone_witness :
    is_valid_email (clean_email "lead@yandex.ru") = true ∧
    904000 ∈ ([⟨"scheduled", some 904000, none⟩] :
        List OutreachRow).filterMap (fun r => r.scheduledFor) ∧
    ∃ t, (queueWithSession [⟨"scheduled", some 904000, none⟩] "lead@yandex.ru"
        none 864000 600 700).1.scheduledFor = some t ∧ 904000 ≤ t :=
  ⟨by decide, by decide,
    c7_scheduled_monotone [⟨"scheduled", some 904000, none⟩] "lead@yandex.ru"
      864000 600 700 904000 (by decide) (by decide)⟩

/-! ## Claim C4 -/

/-- A candidate page carrying a `tel:` anchor and email/phone strings in the
body text, but no `mailto:` anchor. -/
def telOnlyPage : HtmlPage where
  anchors := [⟨"tel:+7 (495) 123-45-67", "Позвонить"⟩]
  bodyText := "Общий e-mail: info@example.com Телефон офиса: +7 812 000-11-22"

/-- Claim C4 (counterexample): on a page with a `tel:` anchor and an email
plus a phone number in the body text, the extractor returns nothing — the
claimed `tel:` records (quality 0.9) and the text-body email/phone regex
scan (0.8/0.6) are absent from the code. -/
theorem c4_tel_and_text_ignored_counterexample :
    extract_contacts_from_html telOnlyPage "https://example.com/" = [] ∧
    enrichCollect (fun u => if u = "https://example.com/" then some telOnlyPage else none)
      ["https://example.com/"] = none := by
  refine ⟨by decide, by decide⟩

/-- Embedding of `firstMailtoRecord` only succeeds on a `mailto:` anchor of the list, and
the produced record is the email record of that anchor. -/
theorem firstMailtoRecord_some (sourceUrl : String) (anchors : List AnchorEl)
    (rec : ContactRecord) (h : firstMailtoRecord sourceUrl anchors = some rec) :
    rec.contactType = "email" ∧ rec.qualityScore = 1 ∧ rec.origin = "mailto" ∧
    rec.sourceUrl = sourceUrl ∧
    ∃ a ∈ anchors, isMailtoHref a.href = true ∧ rec.value = mailtoValue a.href := by
  induction anchors with
  | nil => cases h
  | cons a rest ih =>
    by_cases hm : isMailtoHref a.href
    · rw [firstMailtoRecord, if_pos hm] at h
      obtain rfl := Option.some.inj h
      exact ⟨rfl, rfl, rfl, rfl, a, List.mem_cons_self a rest, hm, rfl⟩
    · rw [firstMailtoRecord, if_neg hm] at h
      obtain ⟨p1, p2, p3, p4, b, hb, hrest⟩ := ih h
      exact ⟨p1, p2, p3, p4, b, List.mem_cons_of_mem a hb, hrest⟩

/-- Embedding of `firstMailtoRecord` fails when no anchor is a `mailto:` link. -/
theorem firstMailtoRecord_none (sourceUrl : String) (anchors : List AnchorEl)
    (h : ∀ a ∈ anchors, isMailtoHref a.href = false) :
    firstMailtoRecord sourceUrl anchors = none := by
  induction anchors with
  | nil => rfl
  | cons a rest ih =>
    rw [firstMailtoRecord,
      if_neg (by simp [h a (List.mem_cons_self a rest)])]
    exact ih (fun b hb => h b (List.mem_cons_of_mem a hb))

/-- Claim C4 (amended): extraction walks anchors and takes the part after
the colon and before `?` of the first `mailto:` href as an email contact of
quality 1.0; `tel:` anchors and text-body email/phone regex scanning are not
implemented, so a page without `mailto:` anchors contributes no contacts;
enrichment stops at the first email found across the candidate URLs, and
any collected record stems from a `mailto:` anchor of a fetched candidate. -/
theorem c4_mailto_only_extraction_amended (fetch : String → Option HtmlPage)
    (candidates : List String) :
    (∀ rec, enrichCollect fetch candidates = some rec →
      rec.contactType = "email" ∧ rec.qualityScore = 1 ∧ rec.origin = "mailto" ∧
      ∃ url ∈ candidates, ∃ page, fetch url = some page ∧ rec.sourceUrl = url ∧
        ∃ a ∈ page.anchors, isMailtoHref a.href = true ∧
          rec.value = mailtoValue a.href) ∧
    ((∀ url ∈ candidates, ∀ page, fetch url = some page →
        ∀ a ∈ page.anchors, isMailtoHref a.href = false) →
      enrichCollect fetch candidates = none) := by
  induction candidates with
  | nil => exact ⟨fun rec h => Option.noConfusion h, fun _ => rfl⟩
  | cons url rest ih =>
    constructor
    · intro rec h
      rw [enrichCollect] at h
      cases hf : fetch url with
      | none =>
        rw [hf] at h
        obtain ⟨p1, p2, p3, u, hu, hres⟩ := ih.1 rec h
        exact ⟨p1, p2, p3, u, List.mem_cons_of_mem url hu, hres⟩
      | some page =>
        rw [hf] at h
        cases hfm : firstMailtoRecord url page.anchors with
        | none =>
          simp only [extract_contacts_from_html, hfm, List.find?] at h
          obtain ⟨p1, p2, p3, u, hu, hres⟩ := ih.1 rec h
          exact ⟨p1, p2, p3, u, List.mem_cons_of_mem url hu, hres⟩
        | some record =>
          obtain ⟨q1, q2, q3, q4, a, ha, hmt, hval⟩ :=
            firstMailtoRecord_some url page.anchors record hfm
          simp only [extract_contacts_from_html, hfm] at h
          rw [List.find?_cons_of_pos _ (by simp [q1])] at h
          obtain rfl := Option.some.inj h
          exact ⟨q1, q2, q3, url, List.mem_cons_self url rest,
            page, hf, q4, a, ha, hmt, hval⟩
    · intro hnone
      rw [enrichCollect]
      cases hf : fetch url with
      | none => exact ih.2 (fun u hu => hnone u (List.mem_cons_of_mem url hu))
      | some page =>
        simp only [extract_contacts_from_html,
          firstMailtoRecord_none url page.anchors
            (hnone url (List.mem_cons_self url rest) page hf),
          List.find?]
        exact ih.2 (fun u hu => hnone u (List.mem_cons_of_mem url hu))

/-- The single-candidate fetch map used by the C4 witness. -/
def siteFetch : String → Option HtmlPage := fun u =>
  if u = "https://site.com/" then
    some ⟨[⟨"mailto:HELLO@site.com", "Напишите нам"⟩], ""⟩
  else none

/-- Claim C4 (witness for the amended theorem): a one-candidate fetch whose
page has a `mailto:` anchor yields exactly that email record. -/
theorem c4_mailto_only_extraction_witness :
    (∀ rec, enrichCollect siteFetch ["https://site.com/"] = some rec →
      rec.contactType = "email" ∧ rec.qualityScore = 1 ∧ rec.origin = "mailto" ∧
      ∃ url ∈ ["https://site.com/"], ∃ page, siteFetch url = some page ∧
        rec.sourceUrl = url ∧
        ∃ a ∈ page.anchors, isMailtoHref a.href = true ∧
          rec.value = mailtoValue a.href) ∧
    mailtoValue "mailto:HELLO@site.com" = "HELLO@site.com" :=
  ⟨(c4_mailto_only_extraction_amended siteFetch ["https://site.com/"]).1, by decide⟩

/-! ## Claim C10 -/

/-- The trigger loop of `_build_queries_texts` only appends to the
accumulator. -/
theorem buildVariants_append (baseTokens : List String) (negatives : String)
    (maxQ : Nat) (ts : List String) (acc : List (String × Option String)) :
    ∃ tail, buildVariants baseTokens negatives maxQ ts acc = acc ++ tail := by
  induction ts generalizing acc with
  | nil => exact ⟨[], (List.append_nil acc).symm⟩
  | cons t rest ih =>
    rw [buildVariants]
    by_cases hb : maxQ ≤ (acc ++ [(joinSpace (baseTokens ++ [t]) ++
        (if negatives ≠ "" then " " ++ negatives else ""), some t)]).length
    · rw [if_pos hb]
      exact ⟨_, rfl⟩
    · rw [if_neg hb]
      obtain ⟨tail, htail⟩ := ih (acc ++ [(joinSpace (baseTokens ++ [t]) ++
        (if negatives ≠ "" then " " ++ negatives else ""), some t)])
      exact ⟨_, by rw [htail, List.append_assoc]⟩

/-- Embedding of `_build_queries_texts` always begins with the base query (no trigger). -/
theorem buildQueriesTexts_head (cfg : GenConfig) (row : NicheRow) :
    ∃ base tail, buildQueriesTexts cfg row = (base, none) :: tail := by
  unfold buildQueriesTexts
  obtain ⟨tail, htail⟩ := buildVariants_append
    (if placeFragment row ≠ "" then
      ["lang:" ++ cfg.language, pyTrim row.niche] ++ [placeFragment row]
     else ["lang:" ++ cfg.language, pyTrim row.niche])
    (negativesStr cfg) cfg.maxQueriesPerNiche
    (cfg.triggers.take (cfg.maxQueriesPerNiche - 1)) _
  simp only []
  rw [htail]
  exact ⟨_, tail, rfl⟩

/-- Embedding of `_next_window_start` never returns a start beyond the window end, for
valid times of day. -/
theorem nextWindowStart_le (cfg : GenConfig) (now : Nat)
    (hstart : cfg.windowStartTod < 86400) (hend : cfg.windowEndTod < 86400) :
    (nextWindowStart cfg now).1 ≤ (nextWindowStart cfg now).2 := by
  unfold nextWindowStart windowBounds
  dsimp only
  split_ifs <;> dsimp only <;> omega

/-- Claim C10: for a niche row, `generate` always returns at least one query:
the first element is the base query (no trigger) scheduled exactly at the
window start chosen by `_next_window_start`, which never exceeds the window
end. -/
theorem c10_generate_first_at_window_start (cfg : GenConfig)
    (sha1Hex : String → String) (row : NicheRow) (now : Nat)
    (hstart : cfg.windowStartTod < 86400) (hend : cfg.windowEndTod < 86400)
    (_hniche : pyTrim row.niche ≠ "") :
    (nextWindowStart cfg now).1 ≤ (nextWindowStart cfg now).2 ∧
    ∃ q tail, generate cfg sha1Hex row now = q :: tail ∧
      q.scheduledFor = (nextWindowStart cfg now).1 ∧ q.trigger = none := by
  have hle := nextWindowStart_le cfg now hstart hend
  refine ⟨hle, ?_⟩
  obtain ⟨base, qtail, hq⟩ := buildQueriesTexts_head cfg row
  rcases hnw : nextWindowStart cfg now with ⟨ws, we⟩
  rw [hnw] at hle
  unfold generate
  rw [hq, hnw]
  dsimp only
  rw [List.length_cons, List.range_succ_eq_map, List.map_cons]
  rw [List.takeWhile_cons_of_pos (by
    simp only [Nat.cast_zero, mul_zero, add_zero, decide_eq_true_eq, not_lt]
    exact hle)]
  rw [List.zip_cons_cons, List.map_cons]
  exact ⟨_, _, rfl, by simp, rfl⟩

/-- Claim C10 (witness): the default configuration at a 03:00-UTC instant
inside the nightly window. -/
def defaultishGenConfig : GenConfig where
  language := "ru"
  windowStartTod := 0
  windowEndTod := 7 * 3600 + 59 * 60
  tzOffset := 10800
  spacingSeconds := 45
  regionFallbackLr := 225
  maxQueriesPerNiche := 6
  triggers := ["\"оставить заявку\"", "\"онлайн запись\"", "\"рассчитать стоимость\"",
               "\"коммерческое предложение\"", "\"бриф\""]
  negSites := ["domain:avito.ru", "yandex.ru", "2gis.ru", "hh.ru", "flamp.ru"]
  regionsLr := [("россия", 225), ("москва", 213), ("санкт‑петербург", 2)]

/-- Claim C10 (witness). -/
theorem c10_generate_first_witness :
    defaultishGenConfig.windowStartTod < 86400 ∧
    defaultishGenConfig.windowEndTod < 86400 ∧
    pyTrim "стоматология" ≠ "" ∧
    ((nextWindowStart defaultishGenConfig 1735786800).1 ≤
        (nextWindowStart defaultishGenConfig 1735786800).2 ∧
      ∃ q tail, generate defaultishGenConfig (fun s => s)
          ⟨3, "стоматология", some "Москва", some "Россия", none⟩ 1735786800 = q :: tail ∧
        q.scheduledFor = (nextWindowStart defaultishGenConfig 1735786800).1 ∧
        q.trigger = none) :=
  ⟨by decide, by decide, by decide,
    c10_generate_first_at_window_start defaultishGenConfig (fun s => s)
      ⟨3, "стоматология", some "Москва", some "Россия", none⟩ 1735786800
      (by decide) (by decide) (by decide)⟩

/-! ## Claim C5 -/

/-- Primary row of the C5 counterexample group. -/
def c5r1 : CompanyRow :=
  ⟨"1", "Alpha", "x.ru", "https://x.ru", "x.ru", "new", false, 0⟩

/-- Non-primary row that already carries `status='duplicate'` with
`opt_out=false` before the run. -/
def c5r2 : CompanyRow :=
  ⟨"2", "Alpha Duplicate", "x.ru", "", "x.ru", "duplicate", false, 1⟩

/-- The two-row table of the C5 counterexample. -/
def c5Db0 : List CompanyRow := [c5r1, c5r2]

/-- Claim C5 (counterexample): the duplicate `UPDATE` carries
`WHERE status <> 'duplicate'`, so a non-primary row that already had
`status='duplicate'` with `opt_out=false` is skipped and keeps
`opt_out=false` after `run()` — the claim requires `opt_out=true` on every
non-primary row. -/
theorem c5_prior_duplicate_counterexample :
    c5ClaimHolds (runDedup (fun s => s) c5Db0) = false ∧
    (runDedup (fun s => s) c5Db0).map (fun r => (r.id, r.status, r.optOut)) =
      [("1", "new", false), ("2", "duplicate", false)] := by
  refine ⟨by decide, by decide⟩

/-- Embedding of `markDup` never changes the row id. -/
theorem markDup_id (r : CompanyRow) : (markDup r).id = r.id := by
  unfold markDup; split_ifs <;> rfl

/-- Embedding of `markDup` is idempotent. -/
theorem markDup_idem (r : CompanyRow) : markDup (markDup r) = markDup r := by
  unfold markDup
  split_ifs with h1 h2 <;> simp_all

/-- Embedding of `promoteRow` never changes the row id. -/
theorem promoteRow_id (r : CompanyRow) : (promoteRow r).id = r.id := rfl

/-- Embedding of `promoteRow` is idempotent. -/
theorem promoteRow_idem (r : CompanyRow) : promoteRow (promoteRow r) = promoteRow r := by
  unfold promoteRow
  split_ifs with h1 h2 <;> simp_all

/-- Embedding of `markDup` never changes the dedupe hash. -/
theorem markDup_hash (r : CompanyRow) : (markDup r).dedupeHash = r.dedupeHash := by
  unfold markDup; split_ifs <;> rfl

/-- Embedding of `promoteRow` never changes the dedupe hash. -/
theorem promoteRow_hash (r : CompanyRow) : (promoteRow r).dedupeHash = r.dedupeHash := rfl

/-- A fold of per-id `UPDATE`s by an idempotent, id-preserving row function
is the pointwise update of every targeted row. -/
theorem foldl_applyUpdate (f : CompanyRow → CompanyRow)
    (idp : ∀ r, (f r).id = r.id) (idem : ∀ r, f (f r) = f r)
    (ids : List String) (db : List CompanyRow) :
    ids.foldl (fun acc i => applyUpdate acc i f) db =
      db.map (fun r => if r.id ∈ ids then f r else r) := by
  induction ids generalizing db with
  | nil => simp
  | cons i ids ih =>
    rw [List.foldl_cons, ih]
    unfold applyUpdate
    rw [List.map_map]
    congr 1
    funext r
    by_cases hri : r.id = i
    · by_cases hr2 : r.id ∈ ids <;>
        simp [Function.comp, hri, hr2, idp, idem, List.mem_cons]
    · by_cases hr2 : r.id ∈ ids <;>
        simp [Function.comp, hri, hr2, List.mem_cons]

/-- Embedding of `_apply_duplicate_updates` as a pointwise table map: mark the duplicate
rows, then promote the primaries. -/
theorem applyDuplicateUpdates_eq_map (db : List CompanyRow) (prim dups : List String) :
    applyDuplicateUpdates db prim dups =
      db.map (fun r =>
        let r1 := if r.id ∈ dups then markDup r else r
        if r.id ∈ prim then promoteRow r1 else r1) := by
  unfold applyDuplicateUpdates
  rw [foldl_applyUpdate markDup markDup_id markDup_idem,
    foldl_applyUpdate promoteRow promoteRow_id promoteRow_idem,
    List.map_map]
  congr 1
  funext r
  by_cases hd : r.id ∈ dups <;> by_cases hp : r.id ∈ prim <;>
    simp [Function.comp, hd, hp, markDup_id]

/-- Stable insertion is a permutation of consing. -/
theorem insertSorted_perm (x : CompanyRow) (l : List CompanyRow) :
    List.Perm (insertSorted x l) (x :: l) := by
  induction l with
  | nil => exact List.Perm.refl _
  | cons y ys ih =>
    rw [insertSorted]
    split_ifs
    · exact (ih.cons y).trans (List.Perm.swap x y ys)
    · exact List.Perm.refl _

/-- The `(created_at, id)` sort is a permutation of its input. -/
theorem sortRows_perm (l : List CompanyRow) : List.Perm (sortRows l) l := by
  induction l with
  | nil => exact List.Perm.refl _
  | cons x xs ih => exact (insertSorted_perm x (sortRows xs)).trans (ih.cons x)

/-- The head of an `Option`-headed list is a member. -/
theorem mem_of_headEq {α : Type} (l : List α) (a : α) (h : l.head? = some a) : a ∈ l := by
  cases l with
  | nil => cases h
  | cons x xs =>
    obtain rfl := Option.some.inj h
    exact List.mem_cons_self x xs

/-- Rows of a group belong to the table and carry the group key. -/
theorem groupOf_mem (db : List CompanyRow) (k : String) (r : CompanyRow)
    (hr : r ∈ groupOf db k) : r ∈ db ∧ pyTrim r.dedupeHash = k := by
  unfold groupOf at hr
  exact ⟨List.mem_of_mem_filter hr, by simpa using List.of_mem_filter hr⟩

/-- Membership in `primaryIds`: the id of some group's sorted head. -/
theorem mem_primaryIds (db : List CompanyRow) (i : String) :
    i ∈ primaryIds db ↔
      ∃ k ∈ dedupKeysOf db, ∃ p, (sortRows (groupOf db k)).head? = some p ∧ p.id = i := by
  unfold primaryIds
  rw [List.mem_filterMap]
  constructor
  · rintro ⟨k, hk, hval⟩
    rcases Option.map_eq_some'.mp hval with ⟨p, hp, hpi⟩
    exact ⟨k, hk, p, hp, hpi⟩
  · rintro ⟨k, hk, p, hp, hpi⟩
    exact ⟨k, hk, Option.map_eq_some'.mpr ⟨p, hp, hpi⟩⟩

/-- Membership in `duplicateIds`: the id of some row after a group's sorted
head. -/
theorem mem_duplicateIds (db : List CompanyRow) (i : String) :
    i ∈ duplicateIds db ↔
      ∃ k ∈ dedupKeysOf db, ∃ d, d ∈ (sortRows (groupOf db k)).tail ∧ d.id = i := by
  unfold duplicateIds
  rw [List.mem_flatMap]
  constructor
  · rintro ⟨k, hk, hval⟩
    rcases List.mem_map.mp hval with ⟨d, hd, hdi⟩
    exact ⟨k, hk, d, hd, hdi⟩
  · rintro ⟨k, hk, d, hd, hdi⟩
    exact ⟨k, hk, List.mem_map.mpr ⟨d, hd, hdi⟩⟩

/-- Embedding of `refreshRow` never changes the row id. -/
theorem refreshRow_id (sha1Hex : String → String) (r : CompanyRow) :
    (refreshRow sha1Hex r).id = r.id := by
  simp only [refreshRow]
  split_ifs <;> rfl

/-- The hash refresh keeps the id column of the table. -/
theorem refreshPhase_ids (sha1Hex : String → String) (db : List CompanyRow) :
    (refreshPhase sha1Hex db).map (fun r => r.id) = db.map (fun r => r.id) := by
  unfold refreshPhase
  rw [List.map_map]
  congr 1
  funext r
  exact refreshRow_id sha1Hex r

/-- Filtering on a column a map preserves commutes with the map. -/
theorem filter_map_pres (F : CompanyRow → CompanyRow) (P : CompanyRow → Bool)
    (hP : ∀ r, P (F r) = P r) (l : List CompanyRow) :
    (l.map F).filter P = (l.filter P).map F := by
  induction l with
  | nil => rfl
  | cons x xs ih =>
    by_cases hx : P x
    · rw [List.map_cons, List.filter_cons_of_pos (by rw [hP]; exact hx),
        List.filter_cons_of_pos hx, List.map_cons, ih]
    · rw [List.map_cons, List.filter_cons_of_neg (by rw [hP]; simpa using hx),
        List.filter_cons_of_neg (by simpa using hx), ih]

/-- A promoted row satisfies the primary postcondition. -/
theorem promote_good (r : CompanyRow) :
    decide ((promoteRow r).status ≠ "duplicate" ∧ (promoteRow r).optOut = false) = true := by
  unfold promoteRow
  split_ifs with h <;> simp_all

/-- A row passed through the duplicate update never satisfies the primary
postcondition. -/
theorem mark_bad (r : CompanyRow) :
    decide ((markDup r).status ≠ "duplicate" ∧ (markDup r).optOut = false) = false := by
  unfold markDup
  split_ifs with h <;> simp_all

/-- A promoted row never keeps the `duplicate` status. -/
theorem promote_status_ne (r : CompanyRow) : (promoteRow r).status ≠ "duplicate" := by
  unfold promoteRow
  split_ifs with h <;> simp_all

/-- A row passed through the duplicate update ends with `duplicate` status. -/
theorem mark_status (r : CompanyRow) : (markDup r).status = "duplicate" := by
  unfold markDup
  split_ifs with h <;> simp_all

/-- The duplicate update sets `opt_out` unless the row was already a
duplicate (then the SQL `WHERE` guard skips it). -/
theorem mark_optout (r : CompanyRow) :
    (markDup r).optOut = true ∨ r.status = "duplicate" := by
  unfold markDup
  split_ifs with h
  · exact Or.inl rfl
  · exact Or.inr (by simpa using h)

/-- Claim C5 (amended): after `run()`, in every non-empty `dedupe_hash`
group of the refreshed table, exactly one row satisfies
`status ≠ 'duplicate' ∧ opt_out = false` — the first row in
`(created_at, id)` order, which is promoted with `opt_out = false` and a
non-duplicate status; every other row ends with `status = 'duplicate'`, and
its `opt_out` is `true` unless the row already had `status = 'duplicate'`
before the update (the `WHERE status <> 'duplicate'` guard skips it, so its
previous `opt_out` survives). -/
theorem c5_dedup_groups_amended (sha1Hex : String → String) (db : List CompanyRow)
    (hids : (db.map (fun r => r.id)).Nodup)
    (k : String) (hk : k ∈ dedupKeysOf (refreshPhase sha1Hex db))
    (p : CompanyRow) (ds : List CompanyRow)
    (hsort : sortRows (groupOf (refreshPhase sha1Hex db) k) = p :: ds) :
    (groupOf (runDedup sha1Hex db) k).countP
        (fun r => decide (r.status ≠ "duplicate" ∧ r.optOut = false)) = 1 ∧
    promoteRow p ∈ groupOf (runDedup sha1Hex db) k ∧
    (promoteRow p).optOut = false ∧ (promoteRow p).status ≠ "duplicate" ∧
    ∀ d ∈ ds, markDup d ∈ groupOf (runDedup sha1Hex db) k ∧
      (markDup d).status = "duplicate" ∧
      ((markDup d).optOut = true ∨ d.status = "duplicate") := by
  set db' := refreshPhase sha1Hex db with hdb'
  have hids' : (db'.map (fun r => r.id)).Nodup := by
    rw [hdb', refreshPhase_ids]
    exact hids
  have hinj : ∀ a ∈ db', ∀ b ∈ db', a.id = b.id → a = b := by
    intro a ha b hb hab
    exact List.inj_on_of_nodup_map hids' ha hb hab
  have hnodup' : db'.Nodup := List.Nodup.of_map _ hids'
  have hperm : List.Perm (sortRows (groupOf db' k)) (groupOf db' k) :=
    sortRows_perm (groupOf db' k)
  have hgnodup : (groupOf db' k).Nodup := List.Nodup.filter _ hnodup'
  have hsnodup : (p :: ds).Nodup := by
    rw [← hsort]
    exact (hperm.nodup_iff).mpr hgnodup
  have hpds : p ∉ ds := (List.nodup_cons.mp hsnodup).1
  have hpg : p ∈ groupOf db' k := by
    refine hperm.mem_iff.mp ?_
    rw [hsort]
    exact List.mem_cons_self _ _
  have hdg : ∀ d ∈ ds, d ∈ groupOf db' k := by
    intro d hd
    refine hperm.mem_iff.mp ?_
    rw [hsort]
    exact List.mem_cons_of_mem p hd
  have hpdb : p ∈ db' := (groupOf_mem db' k p hpg).1
  have hpk : pyTrim p.dedupeHash = k := (groupOf_mem db' k p hpg).2
  -- the primary's id is exactly the head id of this group
  have hp_prim : p.id ∈ primaryIds db' :=
    (mem_primaryIds db' p.id).mpr ⟨k, hk, p, by rw [hsort]; rfl, rfl⟩
  have hp_ndup : p.id ∉ duplicateIds db' := by
    intro hmem
    obtain ⟨k2, hk2, d2, hd2tail, hd2id⟩ := (mem_duplicateIds db' p.id).mp hmem
    have hd2g : d2 ∈ groupOf db' k2 :=
      (sortRows_perm _).mem_iff.mp (List.mem_of_mem_tail hd2tail)
    have hd2p : d2 = p := hinj d2 (groupOf_mem db' k2 d2 hd2g).1 p hpdb hd2id
    subst hd2p
    have hk2k : k2 = k := by
      rw [← (groupOf_mem db' k2 d2 hd2g).2, hpk]
    subst hk2k
    rw [hsort] at hd2tail
    exact hpds hd2tail
  have hd_dup : ∀ d ∈ ds, d.id ∈ duplicateIds db' := by
    intro d hd
    exact (mem_duplicateIds db' d.id).mpr ⟨k, hk, d, by rw [hsort]; exact hd, rfl⟩
  have hd_nprim : ∀ d ∈ ds, d.id ∉ primaryIds db' := by
    intro d hd hmem
    obtain ⟨k2, hk2, p2, hhead, hp2id⟩ := (mem_primaryIds db' d.id).mp hmem
    have hp2g : p2 ∈ groupOf db' k2 :=
      (sortRows_perm _).mem_iff.mp (mem_of_headEq _ p2 hhead)
    have hddb : d ∈ db' := (groupOf_mem db' k d (hdg d hd)).1
    have hp2d : p2 = d := hinj p2 (groupOf_mem db' k2 p2 hp2g).1 d hddb hp2id
    subst hp2d
    have hk2k : k2 = k := by
      rw [← (groupOf_mem db' k2 p2 hp2g).2, (groupOf_mem db' k p2 (hdg p2 hd)).2]
    subst hk2k
    rw [hsort] at hhead
    obtain rfl := Option.some.inj hhead
    exact hpds hd
  -- the run is the pointwise transform of the refreshed table
  have hmap : runDedup sha1Hex db = db'.map (fun r =>
      let r1 := if r.id ∈ duplicateIds db' then markDup r else r
      if r.id ∈ primaryIds db' then promoteRow r1 else r1) := by
    rw [runDedup, ← hdb', applyDuplicateUpdates_eq_map]
  have hFhash : ∀ r : CompanyRow,
      ((fun r : CompanyRow =>
        let r1 := if r.id ∈ duplicateIds db' then markDup r else r
        if r.id ∈ primaryIds db' then promoteRow r1 else r1) r).dedupeHash =
      r.dedupeHash := by
    intro r
    dsimp only
    split_ifs <;> simp [markDup_hash, promoteRow_hash]
  have hgroup : groupOf (runDedup sha1Hex db) k = (groupOf db' k).map (fun r =>
      let r1 := if r.id ∈ duplicateIds db' then markDup r else r
      if r.id ∈ primaryIds db' then promoteRow r1 else r1) := by
    rw [groupOf, hmap, filter_map_pres _ _ (fun r => by rw [hFhash])]
    rfl
  have hFp : (fun r : CompanyRow =>
      let r1 := if r.id ∈ duplicateIds db' then markDup r else r
      if r.id ∈ primaryIds db' then promoteRow r1 else r1) p = promoteRow p := by
    dsimp only
    rw [if_neg hp_ndup, if_pos hp_prim]
  have hFd : ∀ d ∈ ds, (fun r : CompanyRow =>
      let r1 := if r.id ∈ duplicateIds db' then markDup r else r
      if r.id ∈ primaryIds db' then promoteRow r1 else r1) d = markDup d := by
    intro d hd
    dsimp only
    rw [if_neg (hd_nprim d hd), if_pos (hd_dup d hd)]
  refine ⟨?_, ?_, ?_, ?_, ?_⟩
  · rw [hgroup, List.countP_map,
      ← List.Perm.countP_eq _ hperm, hsort, List.countP_cons]
    have hz : List.countP
        ((fun r : CompanyRow => decide (r.status ≠ "duplicate" ∧ r.optOut = false)) ∘
          (fun r : CompanyRow =>
            let r1 := if r.id ∈ duplicateIds db' then markDup r else r
            if r.id ∈ primaryIds db' then promoteRow r1 else r1)) ds = 0 := by
      rw [List.countP_eq_zero]
      intro d hd
      simp only [Function.comp_apply, hFd d hd, mark_bad d]
      simp
    rw [hz]
    simp only [Function.comp_apply, hFp, promote_good p]
    simp
  · rw [hgroup]
    exact List.mem_map.mpr ⟨p, hpg, hFp⟩
  · rfl
  · exact promote_status_ne p
  · intro d hd
    exact ⟨by rw [hgroup]; exact List.mem_map.mpr ⟨d, hdg d hd, hFd d hd⟩,
      mark_status d, mark_optout d⟩

/-- Claim C5 (witness for the amended theorem). -/
theorem c5_dedup_groups_witness :
    (c5Db0.map (fun r => r.id)).Nodup ∧
    "x.ru" ∈ dedupKeysOf (refreshPhase (fun s => s) c5Db0) ∧
    sortRows (groupOf (refreshPhase (fun s => s) c5Db0) "x.ru") = c5r1 :: [c5r2] ∧
    ((groupOf (runDedup (fun s => s) c5Db0) "x.ru").countP
        (fun r => decide (r.status ≠ "duplicate" ∧ r.optOut = false)) = 1 ∧
      promoteRow c5r1 ∈ groupOf (runDedup (fun s => s) c5Db0) "x.ru" ∧
      (promoteRow c5r1).optOut = false ∧ (promoteRow c5r1).status ≠ "duplicate" ∧
      ∀ d ∈ [c5r2], markDup d ∈ groupOf (runDedup (fun s => s) c5Db0) "x.ru" ∧
        (markDup d).status = "duplicate" ∧
        ((markDup d).optOut = true ∨ d.status = "duplicate")) :=
  ⟨by decide, by decide, by decide,
    c5_dedup_groups_amended (fun s => s) c5Db0 (by decide) "x.ru" (by decide)
      c5r1 [c5r2] (by decide)⟩

end LeadGen
